import Mathlib

set_option maxRecDepth 40000

/-!
Verification development for the record-linkage and enrichment core of the
contract-scraper repository.  The TypeScript sources under `src/pipeline/`
(`enrich.ts`, `dedupe.ts`) and the text-cleaning utility module are embedded
shallowly below: strings are `String`/`List Char`, JS `null` is `Option.none`,
JS numbers carrying salary data are `ℚ` (the inputs involved are exact
decimals), timestamps are abstracted by their epoch-millisecond value
(`new Date(s).getTime()`), and the regular expressions of the source are
either transliterated into a small backtracking regex interpreter that follows
ECMAScript matching order (leftmost match, leftmost alternative, greedy
quantifiers) or, for purely literal patterns, into direct scanners.
-/

/-! ## Character helpers (JS character classes, ASCII case folding) -/

/-- JS `\s` (the whitespace class used by `trim` as well), restricted to the
characters that can actually occur in the embedded inputs: space, tab, LF, CR,
VT, FF and NBSP. -/
def isJsSpace (c : Char) : Bool :=
  c = ' ' || c = '\t' || c = '\n' || c = '\r' ||
  c = Char.ofNat 11 || c = Char.ofNat 12 || c = Char.ofNat 160

/-- JS `\w` / word character: `[A-Za-z0-9_]`. -/
def isWordChar (c : Char) : Bool :=
  ('a' ≤ c && c ≤ 'z') || ('A' ≤ c && c ≤ 'Z') || ('0' ≤ c && c ≤ '9') || c = '_'

/-- JS `\d`. -/
def isDigitChar (c : Char) : Bool := '0' ≤ c && c ≤ '9'

/-- `[a-z0-9]`, the class kept by the normalizers after lowercasing. -/
def isLowerAlnum (c : Char) : Bool := ('a' ≤ c && c ≤ 'z') || ('0' ≤ c && c ≤ '9')

/-- ASCII case folding: models `String.prototype.toLowerCase()` and the `i`
regex flag on the ASCII job-board text handled here (non-ASCII characters pass
through unchanged). -/
def foldC (c : Char) : Char :=
  if 65 ≤ c.toNat && c.toNat ≤ 90 then Char.ofNat (c.toNat + 32) else c

/-- Case-insensitive character comparison (regex `i` flag). -/
def eqCI (a b : Char) : Bool := foldC a == foldC b

/-- `trim()`: drop JS whitespace at both ends. -/
def trimL (s : List Char) : List Char :=
  ((s.dropWhile isJsSpace).reverse.dropWhile isJsSpace).reverse

/-- Auxiliary for collapsing whitespace runs: the flag records whether the
previous character was whitespace already emitted as a single space. -/
def collapseWSAux : Bool → List Char → List Char
  | _, [] => []
  | inWS, c :: rest =>
    if isJsSpace c then
      if inWS then collapseWSAux true rest else ' ' :: collapseWSAux true rest
    else c :: collapseWSAux false rest

/-- `.replace(/\s+/g, ' ')`. -/
def collapseWS (s : List Char) : List Char := collapseWSAux false s

/-- Does `s` start with `pat` (exact character equality)? -/
def startsWithL : List Char → List Char → Bool
  | _, [] => true
  | [], _ :: _ => false
  | c :: cs, p :: ps => c == p && startsWithL cs ps

/-- JS `hay.includes(pat)`: `pat` occurs contiguously in `hay`. -/
def strIncludes (hay pat : List Char) : Bool :=
  match hay with
  | [] => pat.isEmpty
  | _ :: t => startsWithL hay pat || strIncludes t pat

/-- Does `s` start with `pat`, case-insensitively (regex `i` flag)? -/
def startsWithCI : List Char → List Char → Bool
  | [], _ => true
  | _ :: _, [] => false
  | p :: ps, c :: cs => eqCI c p && startsWithCI ps cs

/-! ## Data model (`types.ts`) -/

inductive SalaryType where
  | hourly | yearly | fixed
deriving DecidableEq, Repr

inductive CContractType where
  | fullTime | partTime | contract | freelance
deriving DecidableEq, Repr

inductive ExperienceLevel where
  | junior | mid | senior | lead
deriving DecidableEq, Repr

inductive RemoteType where
  | remote | hybrid | onsite
deriving DecidableEq, Repr

/-- The canonical job record.  `posted_at` is the epoch-millisecond value of
the source's timestamp string (`null` is `none`); `raw` is the opaque original
payload, modelled as an association list and never inspected. -/
structure JobListing where
  id : String
  platform : String
  external_id : String
  title : String
  company : Option String
  description : Option String
  url : String
  salary_min : Option ℚ
  salary_max : Option ℚ
  salary_currency : Option String
  salary_type : Option SalaryType
  contract_type : Option CContractType
  experience_level : Option ExperienceLevel
  location : Option String
  remote_type : Option RemoteType
  timezone : Option String
  tech_stack : List String
  tags : List String
  posted_at : Option Nat
  fetched_at : Nat
  raw : List (String × String)
deriving DecidableEq, Repr

/-- JS nullish coalescing `x ?? y` on nullable values. -/
def jsNullish {α : Type} : Option α → Option α → Option α
  | some v, _ => some v
  | none, y => y

/-- `[...new Set(l)]`: first-occurrence deduplication, preserving insertion
order (JS `Set` iteration order). -/
def dedupAcc (seen : List String) : List String → List String
  | [] => []
  | x :: xs => if x ∈ seen then dedupAcc seen xs else x :: dedupAcc (x :: seen) xs

/-- `[...new Set([...a, ...b])]`. -/
def jsSetUnion (a b : List String) : List String := dedupAcc [] (a ++ b)

/-! ## `enrich.ts`: normalization and similarity (imported by `dedupe.ts`) -/

namespace Enrich

/-- The word alternatives of `/\b(inc|llc|ltd|corp|company|co|gmbh|bv|sa|ag)\b/g`. -/
def enrichSuffixList : List (List Char) :=
  [['i','n','c'], ['l','l','c'], ['l','t','d'], ['c','o','r','p'],
   ['c','o','m','p','a','n','y'], ['c','o'], ['g','m','b','h'],
   ['b','v'], ['s','a'], ['a','g']]

/-- Does some alternative match at the start of `s` with a word boundary after
it?  Alternatives are tried in regex alternation order; they all end in a word
character, so the right boundary holds iff the next character is absent or not
a word character.  Returns the matched length. -/
def altMatchLen (alts : List (List Char)) (s : List Char) : Option Nat :=
  match alts with
  | [] => none
  | a :: more =>
    if !a.isEmpty && startsWithL s a &&
        (match s.drop a.length with | [] => true | c :: _ => !isWordChar c) then
      some a.length
    else altMatchLen more s

/-- `String.replace(/\b(alt1|alt2|…)\b/g, '')`: scan left to right; at each
position with a word boundary on the left, the first alternative that matches
with a word boundary on its right is removed, and scanning continues after it.
`prev` is the character just before the current position (the alternatives all
start with a word character, so the left boundary holds iff `prev` is absent
or not a word character).  The fuel argument only bounds the recursion (every
step consumes at least one character, so `s.length` fuel always suffices). -/
def replaceWordAltsF (alts : List (List Char)) :
    Nat → Option Char → List Char → List Char
  | _, _, [] => []
  | 0, _, s => s
  | fuel + 1, prev, c :: rest =>
    let leftB := match prev with | none => true | some p => !isWordChar p
    if leftB then
      match altMatchLen alts (c :: rest) with
      | some n =>
        replaceWordAltsF alts fuel (((c :: rest).take n).getLast?) ((c :: rest).drop n)
      | none => c :: replaceWordAltsF alts fuel (some c) rest
    else c :: replaceWordAltsF alts fuel (some c) rest

def replaceWordAlts (alts : List (List Char)) (prev : Option Char) (s : List Char) :
    List Char :=
  replaceWordAltsF alts s.length prev s

/-- `enrich.ts` `normalizeCompanyName`: lowercase, strip all non-alphanumeric
characters, then apply the word-bounded suffix replacement, then trim.  (JS
`!name` is true for both `null` and the empty string.) -/
def normalizeCompanyName (name : Option String) : String :=
  match name with
  | none => ""
  | some s =>
    if s = "" then ""
    else
      let lowered := s.data.map foldC
      let alnum := lowered.filter isLowerAlnum
      String.mk (trimL (replaceWordAlts enrichSuffixList none alnum))

/-- `enrich.ts` `normalizeTitle`: lowercase, non-alphanumeric → space,
collapse whitespace, trim. -/
def normalizeTitle (title : String) : String :=
  let lowered := title.data.map foldC
  let spaced := lowered.map (fun c => if isLowerAlnum c then c else ' ')
  String.mk (trimL (collapseWS spaced))

/-- Levenshtein edit distance.  The source fills the standard DP matrix with
`matrix[i][j] = min(matrix[i-1][j] + 1, matrix[i][j-1] + 1,
matrix[i-1][j-1] + cost)` over prefixes and reads `matrix[a.length][b.length]`;
this recursion over suffixes satisfies the identical recurrence and computes
the same value for the full strings. -/
def lev : List Char → List Char → Nat
  | [], ys => ys.length
  | xs, [] => xs.length
  | x :: xs, y :: ys =>
    let cost := if x = y then 0 else 1
    min (min (lev xs (y :: ys) + 1) (lev (x :: xs) ys + 1)) (lev xs ys + cost)
termination_by xs ys => xs.length + ys.length

/-- `enrich.ts` `similarityScore`: 1 for identical strings, 0 if either is
empty, 0.9 on substring containment, otherwise `1 - lev/max(len)`.  The
constant 0.9 is written `mkRat 9 10` (definitionally equal to `9/10`; the
`mkRat` form evaluates inside the kernel, `Rat.div` being irreducible). -/
def similarityScore (a b : String) : ℚ :=
  if a = b then 1
  else if a.length = 0 ∨ b.length = 0 then 0
  else if strIncludes a.data b.data || strIncludes b.data a.data then mkRat 9 10
  else 1 - (lev a.data b.data : ℚ) / ((max a.length b.length : ℕ) : ℚ)

end Enrich

/-! ## Clean-utils module: `normalizeCompanyName` (aggressive, suffix-peeling) -/

namespace Clean

/-- `COMPANY_SUFFIXES` from the cleaning utility module, in source order. -/
def COMPANY_SUFFIXES : List String :=
  ["inc", "incorporated", "llc", "llp", "lp", "corp", "corporation", "co",
   "company", "limited", "ltd", "pllc", "pc", "plc", "gmbh", "ag", "kg",
   "ohg", "ug", "bv", "nv", "sa", "sarl", "sas", "intl", "international",
   "group", "holdings", "technologies", "technology", "tech", "labs",
   "studio", "studios", "software", "solutions", "systems", "services",
   "consulting"]

/-- Does some alternative of `\b(suffixes)\.?\s*$` match the whole of `s`
starting at its head: the suffix, a greedy optional dot, then only whitespace
to the end?  (If a dot follows the suffix it must be consumed: the
backtracking alternative fails anyway because `.` is not whitespace.) -/
def suffixMatchesFrom (alts : List (List Char)) (s : List Char) : Bool :=
  alts.any fun a =>
    startsWithL s a &&
    (let r := s.drop a.length
     let r2 := if r.head? = some '.' then r.tail else r
     r2.all isJsSpace)

/-- One `.replace(suffixPattern, '')` pass: scan left to right for the first
position with a word boundary on the left where `\b(suffixes)\.?\s*$` matches;
the match necessarily runs to the end of the string, so everything from that
position on is removed. -/
def stripSuffixScan (alts : List (List Char)) (prev : Option Char) (s : List Char) :
    List Char :=
  match s with
  | [] => []
  | c :: rest =>
    let leftB := match prev with | none => true | some p => !isWordChar p
    if leftB && suffixMatchesFrom alts (c :: rest) then []
    else c :: stripSuffixScan alts (some c) rest

/-- Clean-utils `normalizeCompanyName`: lowercase and trim, apply the
suffix-removal-plus-trim pass three times (to peel compound suffixes like
"Inc. LLC"), then remove the remaining non-`[a-z0-9\s]` characters, remove all
whitespace, and trim. -/
def normalizeCompanyName (name : Option String) : String :=
  match name with
  | none => ""
  | some s =>
    if s = "" then ""
    else
      let alts := COMPANY_SUFFIXES.map String.data
      let n0 := trimL (s.data.map foldC)
      let n1 := trimL (stripSuffixScan alts none n0)
      let n2 := trimL (stripSuffixScan alts none n1)
      let n3 := trimL (stripSuffixScan alts none n2)
      let n4 := n3.filter (fun c => isLowerAlnum c || isJsSpace c)
      String.mk (trimL (n4.filter (fun c => !isJsSpace c)))

end Clean

/-! ## A small backtracking regex interpreter

The remaining source regexes are transliterated into this AST and run by an
interpreter that follows ECMAScript matching order: leftmost starting
position, alternatives tried left to right, greedy quantifiers longest-first,
a starred body that matches the empty string ends the repetition.  Fuel only
bounds the recursion depth; `reFuel` always suffices for the patterns and
inputs involved. -/

inductive RE where
  | eps
  | cls (p : Char → Bool)
  | seq (a b : RE)
  | alt (a b : RE)
  | star (a : RE)
  | grp (n : Nat) (a : RE)
  | wb
  | nla (a : RE)
  | bol
  | eol

/-- Capture list: latest binding for a group index first. -/
abbrev Caps := List (Nat × List Char)

def RE.size : RE → Nat
  | .eps | .cls _ | .wb | .bol | .eol => 1
  | .seq a b | .alt a b => a.size + b.size + 1
  | .star a | .grp _ a | .nla a => a.size + 1

def isWordOpt : Option Char → Bool
  | none => false
  | some c => isWordChar c

/-- The character just before the remainder `s1` of `s`, given the character
`prev` just before `s`. -/
def prevAfter (prev : Option Char) (s s1 : List Char) : Option Char :=
  match (s.take (s.length - s1.length)).getLast? with
  | some c => some c
  | none => prev

/-- All ways `r` can match a prefix of `s`, as (rest of input, captures), in
backtracking priority order; the head is the match the engine commits to. -/
def reRun : Nat → RE → Option Char → List Char → Caps → List (List Char × Caps)
  | 0, _, _, _, _ => []
  | fuel + 1, r, prev, s, cs =>
    match r with
    | .eps => [(s, cs)]
    | .cls p =>
      match s with
      | [] => []
      | c :: rest => if p c then [(rest, cs)] else []
    | .seq a b =>
      (reRun fuel a prev s cs).flatMap fun sc =>
        reRun fuel b (prevAfter prev s sc.1) sc.1 sc.2
    | .alt a b => reRun fuel a prev s cs ++ reRun fuel b prev s cs
    | .star a =>
      ((reRun fuel a prev s cs).flatMap fun sc =>
        if sc.1.length < s.length then
          reRun fuel (.star a) (prevAfter prev s sc.1) sc.1 sc.2
        else []) ++ [(s, cs)]
    | .grp n a =>
      (reRun fuel a prev s cs).map fun sc =>
        (sc.1, (n, s.take (s.length - sc.1.length)) :: sc.2)
    | .wb => if isWordOpt prev != isWordOpt s.head? then [(s, cs)] else []
    | .nla a => if (reRun fuel a prev s cs).isEmpty then [(s, cs)] else []
    | .bol =>
      match prev with
      | none => [(s, cs)]
      | some c => if c = '\n' then [(s, cs)] else []
    | .eol =>
      match s with
      | [] => [(s, cs)]
      | c :: _ => if c = '\n' then [(s, cs)] else []

/-- Recursion-depth bound for `reRun`: every call either shrinks the pattern
or (for `star`) strictly shrinks the input, so `size · (length + 1)` bounds
the depth; the slack keeps the bound safely above it. -/
def reFuel (r : RE) (s : List Char) : Nat := (RE.size r + 2) * (s.length + 2)

/-- `regex.exec(text)` for a global regex with `lastIndex` 0: the leftmost
match, returned as (text before the match, matched text, rest, captures). -/
def reScan (r : RE) (prev : Option Char) (s : List Char) :
    Option (List Char × List Char × List Char × Caps) :=
  match reRun (reFuel r s) r prev s [] with
  | sc :: _ => some ([], s.take (s.length - sc.1.length), sc.1, sc.2)
  | [] =>
    match s with
    | [] => none
    | c :: rest =>
      match reScan r (some c) rest with
      | some (pre, m0, post, cs) => some (c :: pre, m0, post, cs)
      | none => none

/-- `regex.test(text)`. -/
def reTest (r : RE) (s : List Char) : Bool := (reScan r none s).isSome

/-- `text.replace(re, f)` for a global regex: repeatedly find the next match
and substitute `f match`; an empty match advances one character (the
ECMAScript rule; the patterns here never match empty). -/
def reReplaceFunF (r : RE) (f : List Char → List Char) :
    Nat → Option Char → List Char → List Char
  | 0, _, s => s
  | fuel + 1, prev, s =>
    match reScan r prev s with
    | none => s
    | some (pre, m0, post, _) =>
      match m0 with
      | [] =>
        match post with
        | [] => pre ++ f []
        | c :: rest => pre ++ f [] ++ c :: reReplaceFunF r f fuel (some c) rest
      | _ => pre ++ f m0 ++ reReplaceFunF r f fuel (prevAfter prev s post) post

def reReplaceFun (r : RE) (f : List Char → List Char) (s : List Char) : List Char :=
  reReplaceFunF r f (s.length + 1) none s

/-- `text.replace(re, constant)` for a global regex. -/
def reReplace (r : RE) (repl : List Char) (s : List Char) : List Char :=
  reReplaceFun r (fun _ => repl) s

/-! ### Pattern-building helpers -/

/-- A single literal character, case-insensitive (the source regexes carry
the `i` flag wherever letters appear; `foldC` is the identity on
non-letters). -/
def ci (c : Char) : RE := .cls (fun x => eqCI x c)

def rseq (l : List RE) : RE :=
  match l with
  | [] => .eps
  | r :: rest => rest.foldl .seq r

/-- Alternation; alternatives are tried in list order, as the regex engine
tries `|` branches left to right. -/
def ralts (l : List RE) : RE :=
  match l with
  | [] => .eps
  | r :: rest => rest.foldl .alt r

def istr (s : String) : RE := rseq (s.data.map ci)

def ropt (r : RE) : RE := .alt r .eps

def rplus (r : RE) : RE := .seq r (.star r)

/-- `\s`. -/
def wsC : RE := .cls isJsSpace

/-- `\s*`. -/
def wsS : RE := .star wsC

/-- `\s+`. -/
def wsP : RE := rplus wsC

/-- `\b(w1|w2|…)\b`. -/
def wtok (ws : List String) : RE := rseq [.wb, ralts (ws.map istr), .wb]

/-! ## Clean-utils module: entity decoding, markup stripping, salary and
signal extraction, `cleanJobListing` -/

namespace Clean

/-- Decimal digit run to a number (`parseInt(s, 10)` on an all-digit
string). -/
def digitsToNat (l : List Char) : Nat :=
  l.foldl (fun a c => a * 10 + (c.toNat - 48)) 0

def isHexDigit (c : Char) : Bool :=
  isDigitChar c || ('a' ≤ c && c ≤ 'f') || ('A' ≤ c && c ≤ 'F')

def hexVal (c : Char) : Nat :=
  if isDigitChar c then c.toNat - 48
  else if 'a' ≤ c && c ≤ 'f' then c.toNat - 87
  else c.toNat - 55

/-- Hex digit run to a number (`parseInt(s, 16)`). -/
def hexToNat (l : List Char) : Nat := l.foldl (fun a c => a * 16 + hexVal c) 0

/-- `String.fromCharCode(code)` guarded by `0 < code < 65536` as in the
source.  Code points in the surrogate range are not valid scalar values in
Lean and map to NUL here — a documented divergence (JS would produce a lone
surrogate); no claim depends on it. -/
def charOfCode (code : Nat) : List Char :=
  if 0 < code ∧ code < 65536 then [Char.ofNat code] else []

/-- `acc.replace(new RegExp(entity, 'gi'), replacement)` for a literal
pattern: scan left to right, replace each case-insensitive occurrence, and
continue after it.  Fuel bounds the recursion; every step consumes at least
one character, so the input length suffices. -/
def replaceLiteralCIF (pat repl : List Char) : Nat → List Char → List Char
  | _, [] => []
  | 0, s => s
  | fuel + 1, c :: rest =>
    if pat ≠ [] ∧ startsWithCI pat (c :: rest) then
      repl ++ replaceLiteralCIF pat repl fuel (rest.drop (pat.length - 1))
    else c :: replaceLiteralCIF pat repl fuel rest

def replaceLiteralCI (pat repl s : List Char) : List Char :=
  replaceLiteralCIF pat repl s.length s

/-- The apostrophe and double-quote replacement strings of the entity
table. -/
def aposS : String := String.mk [Char.ofNat 39]

def quotS : String := String.mk [Char.ofNat 34]

/-- `HTML_ENTITIES`, in source (insertion) order — the named-entity passes
run sequentially in this order. -/
def HTML_ENTITIES : List (String × String) :=
  [("&amp;", "&"), ("&lt;", "<"), ("&gt;", ">"), ("&quot;", quotS),
   ("&apos;", aposS), ("&nbsp;", " "), ("&ndash;", "-"), ("&mdash;", "-"),
   ("&lsquo;", aposS), ("&rsquo;", aposS), ("&ldquo;", quotS),
   ("&rdquo;", quotS), ("&bull;", "*"), ("&hellip;", "..."),
   ("&copy;", "(c)"), ("&reg;", "(R)"), ("&trade;", "(TM)"),
   ("&euro;", "EUR"), ("&pound;", "GBP"), ("&yen;", "JPY"), ("&cent;", "c"),
   ("&deg;", " degrees"), ("&plusmn;", "+/-"), ("&times;", "x"),
   ("&divide;", "/"), ("&frac12;", "1/2"), ("&frac14;", "1/4"),
   ("&frac34;", "3/4")]

/-- One `&`-headed step of the decimal character-reference pass: at
`&#digits;` emit `fromCharCode` of the number (empty for out-of-range codes)
and continue after the `;`; anything else is copied.  The recursive
continuation of the scan is passed in as `rec`. -/
def decDecStep (rec : List Char → List Char) (c : Char) (rest : List Char) :
    List Char :=
  match rest with
  | '#' :: rest2 =>
    (match rest2.dropWhile isDigitChar with
     | ';' :: tl =>
       if (rest2.takeWhile isDigitChar).isEmpty then c :: rec rest
       else
         charOfCode (digitsToNat (rest2.takeWhile isDigitChar)) ++ rec tl
     | _ => c :: rec rest)
  | _ => c :: rec rest

/-- The decimal character-reference pass `/&#(\d+);/g`.  Fuel bounds the
recursion (each step consumes at least one character). -/
def decodeDecEntitiesF : Nat → List Char → List Char
  | 0, s => s
  | _ + 1, [] => []
  | fuel + 1, c :: rest =>
    if c = '&' then decDecStep (decodeDecEntitiesF fuel) c rest
    else c :: decodeDecEntitiesF fuel rest

/-- One `&`-headed step of the hex character-reference pass (the `x` is
lowercase in the source pattern, which has no `i` flag). -/
def decHexStep (rec : List Char → List Char) (c : Char) (rest : List Char) :
    List Char :=
  match rest with
  | '#' :: 'x' :: rest2 =>
    (match rest2.dropWhile isHexDigit with
     | ';' :: tl =>
       if (rest2.takeWhile isHexDigit).isEmpty then c :: rec rest
       else charOfCode (hexToNat (rest2.takeWhile isHexDigit)) ++ rec tl
     | _ => c :: rec rest)
  | _ => c :: rec rest

/-- The hex character-reference pass `/&#x([0-9a-fA-F]+);/g`. -/
def decodeHexEntitiesF : Nat → List Char → List Char
  | 0, s => s
  | _ + 1, [] => []
  | fuel + 1, c :: rest =>
    if c = '&' then decHexStep (decodeHexEntitiesF fuel) c rest
    else c :: decodeHexEntitiesF fuel rest

/-- `decodeHTMLEntities`: the named-entity replacement passes in table order,
then the decimal pass, then the hex pass.  (`!text` also catches the empty
string.) -/
def decodeHTMLEntities (text : String) : String :=
  if text = "" then ""
  else
    let r1 := HTML_ENTITIES.foldl
      (fun acc e => replaceLiteralCI e.1.data e.2.data acc) text.data
    let r2 := decodeDecEntitiesF r1.length r1
    String.mk (decodeHexEntitiesF r2.length r2)

end Clean

namespace Clean

/-! ### Salary extraction -/

structure ExtractedSalary where
  min : Option ℚ
  max : Option ℚ
  currency : String
  type : SalaryType
deriving DecidableEq, Repr

/-- `s.replace(/,/g, '')`. -/
def stripCommas (l : List Char) : List Char := l.filter (fun c => c ≠ ',')

/-- `s.replace(',', '.')` — only the first comma, as the JS string `replace`
with a string pattern. -/
def replaceFirstComma : List Char → List Char
  | [] => []
  | c :: rest => if c = ',' then '.' :: rest else c :: replaceFirstComma rest

/-- The European-format normalization `s.replace(/\./g, '').replace(',', '.')`. -/
def euroNorm (l : List Char) : List Char :=
  replaceFirstComma (l.filter (fun c => c ≠ '.'))

/-- JS `parseFloat` restricted to the numeric strings the salary handlers
produce: leading whitespace, an optional sign, decimal digits with an
optional fractional part; parsing stops at the first character that cannot
extend the number; `none` models `NaN` (no leading number).  The value is
built with `mkRat` so it evaluates in the kernel. -/
def parseF (s : List Char) : Option ℚ :=
  let s1 := s.dropWhile isJsSpace
  let sgn : Int := match s1 with | '-' :: _ => -1 | _ => 1
  let s2 := match s1 with
    | '-' :: rest => rest
    | '+' :: rest => rest
    | _ => s1
  let intPart := s2.takeWhile isDigitChar
  let s3 := s2.dropWhile isDigitChar
  let fracPart := match s3 with
    | '.' :: rest => rest.takeWhile isDigitChar
    | _ => []
  if intPart.isEmpty && fracPart.isEmpty then none
  else
    some (mkRat
      (sgn * (digitsToNat intPart * 10 ^ fracPart.length + digitsToNat fracPart))
      (10 ^ fracPart.length))

/-- `match[0].toLowerCase().includes('k')`. -/
def hasLowerK (m0 : List Char) : Bool := m0.any (fun c => foldC c = 'k')

/-- Multiplication of a rational by a natural constant, written on the
`mkRat` components so it evaluates in the kernel (`Rat.mul` is irreducible);
`ratMulNat_eq` states the equality with `*`. -/
def ratMulNat (v : ℚ) (k : Nat) : ℚ := mkRat (v.num * k) v.den

/-- The `k`-shorthand expansion of a handler: `if (match[0] has k and
v < 1000) v *= 1000`, applied to a possibly-NaN (`none`) value. -/
def kAdj (hk : Bool) (v : Option ℚ) : Option ℚ :=
  match v with
  | none => none
  | some x => if hk && decide (x < 1000) then some (ratMulNat x 1000) else some x

/-- `typeHint.includes('hour') || typeHint.includes('hr')` on the lowercased
optional capture. -/
def hourlyHint (g : Option (List Char)) : Bool :=
  let th := (match g with | some t => t | none => []).map foldC
  strIncludes th "hour".data || strIncludes th "hr".data

/-- Handler of pattern 1 (`$A k? [-–—to]+ $? B k? (per)? (year|…)?`).
`none` models the handler throwing (a required group missing). -/
def handler1 (m0 : List Char) (g : Nat → Option (List Char)) :
    Option ExtractedSalary :=
  match g 1, g 2 with
  | some a, some b =>
    some { min := kAdj (hasLowerK m0) (parseF (stripCommas a))
           max := kAdj (hasLowerK m0) (parseF (stripCommas b))
           currency := "USD"
           type := if hourlyHint (g 3) then .hourly else .yearly }
  | _, _ => none

/-- Handler of pattern 2 (`$A k? + (per)? (year|…)?`). -/
def handler2 (m0 : List Char) (g : Nat → Option (List Char)) :
    Option ExtractedSalary :=
  match g 1 with
  | some a =>
    some { min := kAdj (hasLowerK m0) (parseF (stripCommas a))
           max := none
           currency := "USD"
           type := if hourlyHint (g 2) then .hourly else .yearly }
  | none => none

/-- Handler of pattern 3 (EUR range, European number format). -/
def handler3 (_ : List Char) (g : Nat → Option (List Char)) :
    Option ExtractedSalary :=
  match g 1, g 2 with
  | some a, some b =>
    some { min := parseF (euroNorm a)
           max := parseF (euroNorm b)
           currency := "EUR"
           type := .yearly }
  | _, _ => none

/-- Handler of pattern 4 (GBP range). -/
def handler4 (m0 : List Char) (g : Nat → Option (List Char)) :
    Option ExtractedSalary :=
  match g 1, g 2 with
  | some a, some b =>
    some { min := kAdj (hasLowerK m0) (parseF (stripCommas a))
           max := kAdj (hasLowerK m0) (parseF (stripCommas b))
           currency := "GBP"
           type := .yearly }
  | _, _ => none

/-- Handler of pattern 5 (hourly rate `$A(-$B)? /hr|per hour`). -/
def handler5 (_ : List Char) (g : Nat → Option (List Char)) :
    Option ExtractedSalary :=
  match g 1 with
  | some a =>
    some { min := parseF (stripCommas a)
           max := match g 2 with
                  | some b => parseF (stripCommas b)
                  | none => none
           currency := "USD"
           type := .hourly }
  | none => none

/-- `[\d,]`. -/
def digC : RE := .cls (fun c => isDigitChar c || c = ',')

/-- `[\d.,]`. -/
def digDotC : RE := .cls (fun c => isDigitChar c || c = '.' || c = ',')

/-- `[-–—to]` (the class contains the three dash characters plus the letters
`t` and `o`). -/
def sepC : RE := .cls (fun c => c = '-' || c = '–' || c = '—' || c = 't' || c = 'o')

/-- `(?:per\s+)?`. -/
def perOpt : RE := ropt (rseq [istr "per", wsP])

def salaryRE1 : RE :=
  rseq [ci '$', wsS, .grp 1 (rplus digC), wsS, ropt (ci 'k'), wsS,
    rplus sepC, wsS, ropt (ci '$'), wsS, .grp 2 (rplus digC), wsS,
    ropt (ci 'k'), wsS, perOpt,
    ropt (.grp 3 (ralts [istr "year", istr "yr", istr "annual",
      istr "annually", istr "hour", istr "hr", istr "hourly"]))]

def salaryRE2 : RE :=
  rseq [ci '$', wsS, .grp 1 (rplus digC), wsS, ropt (ci 'k'), wsS, ci '+',
    wsS, perOpt,
    ropt (.grp 2 (ralts [istr "year", istr "yr", istr "annual",
      istr "hour", istr "hr"]))]

def salaryRE3 : RE :=
  rseq [ralts [istr "EUR", ci '€'], wsS, .grp 1 (rplus digDotC), wsS,
    rplus sepC, wsS, ropt (ralts [istr "EUR", ci '€']), wsS,
    .grp 2 (rplus digDotC), wsS, perOpt,
    ropt (.grp 3 (ralts [istr "year", istr "annual", istr "month"]))]

def salaryRE4 : RE :=
  rseq [ralts [istr "GBP", ci '£'], wsS, .grp 1 (rplus digC), wsS,
    ropt (ci 'k'), wsS, rplus sepC, wsS, ropt (ralts [istr "GBP", ci '£']),
    wsS, .grp 2 (rplus digC), wsS, ropt (ci 'k'), wsS, perOpt,
    ropt (.grp 3 (ralts [istr "year", istr "annual"]))]

def salaryRE5 : RE :=
  rseq [ci '$', wsS, .grp 1 (rplus digC), wsS,
    ropt (rseq [rplus sepC, wsS, ropt (ci '$'), wsS, .grp 2 (rplus digC), wsS]),
    ralts [ci '/', rseq [wsP, istr "per", wsP]],
    .grp 3 (ralts [istr "hr", istr "hour"])]

/-- `SALARY_PATTERNS`, in source order: first matching pattern wins. -/
def SALARY_PATTERNS :
    List (RE × (List Char → (Nat → Option (List Char)) → Option ExtractedSalary)) :=
  [(salaryRE1, handler1), (salaryRE2, handler2), (salaryRE3, handler3),
   (salaryRE4, handler4), (salaryRE5, handler5)]

/-- `match[n]` from the capture list (latest binding wins; an optional group
that did not participate yields `none` = `undefined`). -/
def capLookup (cs : Caps) (n : Nat) : Option (List Char) :=
  (cs.find? (fun e => e.1 == n)).map (fun e => e.2)

/-- The plausibility test `value < 0 || value > 10000000` on an optional
bound (a missing bound passes). -/
def badBound : Option ℚ → Bool
  | some v => decide (v < 0) || decide (10000000 < v)
  | none => false

/-- The in-loop validation of `extractSalaryFromText`: values outside
[0, 10,000,000] make the pattern's result rejected (the loop continues with
the next pattern); if both bounds are present and min > max they are
swapped. -/
def validateAndFix (r : ExtractedSalary) : Option ExtractedSalary :=
  if badBound r.min then none
  else if badBound r.max then none
  else
    match r.min, r.max with
    | some mn, some mx =>
      if mx < mn then some { r with min := some mx, max := some mn } else some r
    | _, _ => some r

/-- The pattern loop: run each regex; on a match, run the handler (a thrown
handler — `none` — continues with the next pattern, as the `catch` does), then
validate; a rejected result also continues with the next pattern. -/
def tryPatterns :
    List (RE × (List Char → (Nat → Option (List Char)) → Option ExtractedSalary)) →
    List Char → Option ExtractedSalary
  | [], _ => none
  | (re, h) :: rest, s =>
    match reScan re none s with
    | none => tryPatterns rest s
    | some (_, m0, _, cs) =>
      match h m0 (capLookup cs) with
      | none => tryPatterns rest s
      | some r =>
        match validateAndFix r with
        | none => tryPatterns rest s
        | some r2 => some r2

/-- `extractSalaryFromText`. -/
def extractSalaryFromText (text : String) : Option ExtractedSalary :=
  if text = "" then none
  else tryPatterns SALARY_PATTERNS text.data

end Clean

namespace Clean

/-! ### Markup stripping and display cleaning -/

/-- `h[1-6]`. -/
def hNum : RE := .seq (ci 'h') (.cls (fun c => '1' ≤ c && c ≤ '6'))

/-- `<\/(p|div|h[1-6]|li|tr|br)>`. -/
def tagCloseRE : RE :=
  rseq [ci '<', ci '/',
    ralts [istr "p", istr "div", hNum, istr "li", istr "tr", istr "br"],
    ci '>']

/-- `<(p|div|h[1-6]|li|tr)(\s[^>]*)?>`. -/
def tagOpenRE : RE :=
  rseq [ci '<', ralts [istr "p", istr "div", hNum, istr "li", istr "tr"],
    ropt (rseq [wsC, .star (.cls (fun c => c ≠ '>'))]), ci '>']

/-- `<br\s*\/?>`. -/
def brRE : RE := rseq [ci '<', istr "br", wsS, ropt (ci '/'), ci '>']

/-- `<hr\s*\/?>`. -/
def hrRE : RE := rseq [ci '<', istr "hr", wsS, ropt (ci '/'), ci '>']

/-- `<[^>]*>`. -/
def anyTagRE : RE := rseq [ci '<', .star (.cls (fun c => c ≠ '>')), ci '>']

/-- `&[#\w]+;`. -/
def entityRE : RE :=
  rseq [ci '&', rplus (.cls (fun c => c = '#' || isWordChar c)), ci ';']

/-- `[ \t]+`. -/
def spTabRE : RE := rplus (.cls (fun c => c = ' ' || c = '\t'))

/-- `\n\s*\n`. -/
def dblNlRE : RE := rseq [ci '\n', wsS, ci '\n']

/-- `^\s+|\s+$` with the `m` flag (per-line anchors). -/
def trimLinesRE : RE :=
  ralts [rseq [.bol, rplus wsC], rseq [rplus wsC, .eol]]

/-- The entity callback of `stripHTML`: decode the matched entity, fall back
to a space if decoding did not change it. -/
def entityToText (m : List Char) : List Char :=
  let decoded := (decodeHTMLEntities (String.mk m)).data
  if decoded ≠ m then decoded else [' ']

/-- `stripHTML`: block-level tags to newlines, drop the remaining tags,
decode entities (unknown ones become spaces), then normalize whitespace. -/
def stripHTML (text : String) : String :=
  if text = "" then ""
  else
    let s1 := reReplace tagCloseRE ['\n'] text.data
    let s2 := reReplace tagOpenRE ['\n'] s1
    let s3 := reReplace brRE ['\n'] s2
    let s4 := reReplace hrRE ('\n' :: '-' :: '-' :: '-' :: ['\n']) s3
    let s5 := reReplace anyTagRE [] s4
    let s6 := reReplaceFun entityRE entityToText s5
    let s7 := reReplace spTabRE [' '] s6
    let s8 := reReplace dblNlRE ('\n' :: ['\n']) s7
    let s9 := reReplace trimLinesRE [] s8
    String.mk (trimL s9)

/-- `cleanText`: decode entities, strip markup, collapse whitespace, trim. -/
def cleanText (text : String) : String :=
  if text = "" then ""
  else String.mk (trimL (collapseWS (stripHTML (decodeHTMLEntities text)).data))

/-- `cleanCompanyName` (display cleaning): decode entities in place,
collapse whitespace, trim. -/
def cleanCompanyName (name : Option String) : String :=
  match name with
  | none => ""
  | some s =>
    if s = "" then ""
    else
      let s1 := reReplaceFun entityRE
        (fun m => (decodeHTMLEntities (String.mk m)).data) s.data
      String.mk (trimL (collapseWS s1))

/-! ### Location normalization -/

/-- `\b(remote|anywhere|worldwide|global|distributed)\b`. -/
def remoteRE : RE :=
  wtok ["remote", "anywhere", "worldwide", "global", "distributed"]

/-- The US-state table, in source order. -/
def usStates : List (String × String) :=
  [("california", "CA"), ("new york", "NY"), ("texas", "TX"),
   ("florida", "FL"), ("washington", "WA"), ("colorado", "CO"),
   ("massachusetts", "MA"), ("illinois", "IL"), ("georgia", "GA"),
   ("north carolina", "NC"), ("pennsylvania", "PA"), ("oregon", "OR"),
   ("arizona", "AZ"), ("virginia", "VA"), ("ohio", "OH"),
   ("michigan", "MI"), ("utah", "UT"), ("minnesota", "MN")]

/-- `normalizeLocation`: trim, decode entities, tidy whitespace when a
remote-style keyword occurs, abbreviate US state names; an empty result is
`null`. -/
def normalizeLocation (location : Option String) : Option String :=
  match location with
  | none => none
  | some s =>
    if s = "" then none
    else
      let n0 := trimL s.data
      let n1 := (decodeHTMLEntities (String.mk n0)).data
      let n2 := if reTest remoteRE n1 then trimL (collapseWS n1) else n1
      let n3 := usStates.foldl
        (fun acc e => reReplace (rseq [.wb, istr e.1, .wb]) e.2.data acc) n2
      if n3 = [] then none else some (String.mk n3)

end Clean

namespace Clean

/-! ### Tech-stack, experience and contract detection -/

/-- `[\s-]`. -/
def sdC : RE := .cls (fun c => isJsSpace c || c = '-')

/-- `(\.?js)?`. -/
def jsSuffix : RE := ropt (rseq [ropt (ci '.'), istr "js"])

/-- `\bW\.?js\b`. -/
def dotJs (s : String) : RE := rseq [.wb, istr s, ropt (ci '.'), istr "js", .wb]

/-- `years?`. -/
def yearsS : RE := rseq [istr "year", ropt (ci 's')]

/-- `TECH_PATTERNS`, in source (insertion) order; detection iterates the
entries in this order and collects every tag whose pattern tests true. -/
def TECH_PATTERNS : List (String × RE) :=
  [("javascript", wtok ["javascript", "js"]),
   ("typescript", wtok ["typescript", "ts"]),
   ("python", wtok ["python"]),
   ("rust", wtok ["rust"]),
   ("go", rseq [.wb, ralts [istr "golang",
      rseq [istr "go", wsP, istr "programming"],
      rseq [istr "go", wsP, istr "developer"]], .wb]),
   ("java", rseq [.wb, istr "java", .wb, .nla (rseq [wsS, istr "script"])]),
   ("c++", rseq [.wb, ralts [istr "c++", istr "cpp"], .wb]),
   ("c#", rseq [.wb, ralts [istr "c#", istr "csharp", istr ".net"], .wb]),
   ("ruby", wtok ["ruby"]),
   ("php", wtok ["php"]),
   ("swift", wtok ["swift"]),
   ("kotlin", wtok ["kotlin"]),
   ("scala", wtok ["scala"]),
   ("elixir", wtok ["elixir"]),
   ("haskell", wtok ["haskell"]),
   ("clojure", wtok ["clojure"]),
   ("erlang", wtok ["erlang"]),
   ("zig", wtok ["zig"]),
   ("nim", wtok ["nim"]),
   ("ocaml", wtok ["ocaml"]),
   ("fsharp", wtok ["f#"]),
   ("lua", wtok ["lua"]),
   ("perl", wtok ["perl"]),
   ("r", rseq [.wb, ralts [rseq [istr "r", wsP, istr "programming"],
      rseq [istr "r", wsP, istr "language"], istr "rstats"], .wb]),
   ("julia", wtok ["julia"]),
   ("dart", wtok ["dart"]),
   ("objectivec", rseq [.wb, ralts [rseq [istr "objective", ropt sdC, istr "c"],
      istr "objc"], .wb]),
   ("cobol", wtok ["cobol"]),
   ("fortran", wtok ["fortran"]),
   ("react", rseq [.wb, istr "react", jsSuffix, .wb]),
   ("vue", rseq [.wb, istr "vue", jsSuffix, .wb]),
   ("angular", wtok ["angular"]),
   ("svelte", wtok ["svelte"]),
   ("nextjs", dotJs "next"),
   ("nuxt", wtok ["nuxt"]),
   ("remix", wtok ["remix"]),
   ("astro", wtok ["astro"]),
   ("gatsby", wtok ["gatsby"]),
   ("solidjs", dotJs "solid"),
   ("qwik", wtok ["qwik"]),
   ("htmx", wtok ["htmx"]),
   ("alpinejs", dotJs "alpine"),
   ("ember", rseq [.wb, istr "ember", jsSuffix, .wb]),
   ("backbone", rseq [.wb, istr "backbone", jsSuffix, .wb]),
   ("jquery", wtok ["jquery"]),
   ("nodejs", rseq [.wb, istr "node", jsSuffix, .wb]),
   ("express", rseq [.wb, istr "express", jsSuffix, .wb]),
   ("fastify", wtok ["fastify"]),
   ("nestjs", dotJs "nest"),
   ("hono", wtok ["hono"]),
   ("django", wtok ["django"]),
   ("flask", wtok ["flask"]),
   ("fastapi", wtok ["fastapi"]),
   ("rails", wtok ["rails"]),
   ("laravel", wtok ["laravel"]),
   ("spring", rseq [.wb, istr "spring", ropt (rseq [wsS, istr "boot"]), .wb]),
   ("aspnet", rseq [.wb, istr "asp", ropt (ci '.'), istr "net", .wb]),
   ("gin", rseq [.wb, istr "gin", wsS,
      ropt (ralts [istr "framework", istr "golang"]), .wb]),
   ("fiber", rseq [.wb, istr "fiber", wsS, ropt (istr "go"), .wb]),
   ("echo", rseq [.wb, istr "echo", wsS, ralts [istr "go", istr "framework"], .wb]),
   ("actix", wtok ["actix"]),
   ("axum", wtok ["axum"]),
   ("rocket", rseq [.wb, istr "rocket", wsS, ropt (istr "rust"), .wb]),
   ("phoenix", rseq [.wb, istr "phoenix", wsS,
      ropt (ralts [istr "framework", istr "elixir"]), .wb]),
   ("sinatra", wtok ["sinatra"]),
   ("koa", rseq [.wb, istr "koa", jsSuffix, .wb]),
   ("hapi", wtok ["hapi"]),
   ("adonisjs", dotJs "adonis"),
   ("postgresql", rseq [.wb, ralts [rseq [istr "postgres", ropt (istr "ql")],
      istr "psql"], .wb]),
   ("mysql", wtok ["mysql"]),
   ("mongodb", wtok ["mongodb", "mongo"]),
   ("redis", wtok ["redis"]),
   ("elasticsearch", wtok ["elasticsearch"]),
   ("dynamodb", wtok ["dynamodb"]),
   ("sqlite", wtok ["sqlite"]),
   ("supabase", wtok ["supabase"]),
   ("cassandra", wtok ["cassandra"]),
   ("couchdb", wtok ["couchdb"]),
   ("neo4j", wtok ["neo4j"]),
   ("mariadb", wtok ["mariadb"]),
   ("oracle", rseq [.wb, istr "oracle", wsS,
      ropt (ralts [istr "db", istr "database"]), .wb]),
   ("sqlserver", rseq [.wb, ralts [rseq [istr "sql", wsS, istr "server"],
      istr "mssql"], .wb]),
   ("cockroachdb", rseq [.wb, istr "cockroach", wsS, istr "db", .wb]),
   ("planetscale", wtok ["planetscale"]),
   ("fauna", rseq [.wb, istr "fauna", wsS, ropt (istr "db"), .wb]),
   ("firestore", wtok ["firestore"]),
   ("prisma", wtok ["prisma"]),
   ("drizzle", rseq [.wb, istr "drizzle", wsS, ropt (istr "orm"), .wb]),
   ("typeorm", wtok ["typeorm"]),
   ("sequelize", wtok ["sequelize"]),
   ("knex", wtok ["knex"]),
   ("clickhouse", wtok ["clickhouse"]),
   ("timescaledb", rseq [.wb, istr "timescale", wsS, istr "db", .wb]),
   ("influxdb", rseq [.wb, istr "influx", wsS, istr "db", .wb]),
   ("aws", rseq [.wb, ralts [istr "aws",
      rseq [istr "amazon", wsS, istr "web", wsS, istr "services"]], .wb]),
   ("gcp", rseq [.wb, ralts [istr "gcp",
      rseq [istr "google", wsS, istr "cloud"]], .wb]),
   ("azure", wtok ["azure"]),
   ("docker", wtok ["docker"]),
   ("kubernetes", wtok ["kubernetes", "k8s"]),
   ("terraform", wtok ["terraform"]),
   ("ansible", wtok ["ansible"]),
   ("jenkins", wtok ["jenkins"]),
   ("github-actions", rseq [.wb, istr "github", wsS, istr "actions", .wb]),
   ("circleci", wtok ["circleci"]),
   ("gitlab", rseq [.wb, istr "gitlab", ropt (rseq [wsS, istr "ci"]), .wb]),
   ("vercel", wtok ["vercel"]),
   ("netlify", wtok ["netlify"]),
   ("cloudflare", rseq [.wb, istr "cloudflare",
      ropt (rseq [wsS, istr "workers"]), .wb]),
   ("heroku", wtok ["heroku"]),
   ("digitalocean", rseq [.wb, istr "digital", wsS, istr "ocean", .wb]),
   ("linode", wtok ["linode"]),
   ("fly", rseq [.wb, istr "fly", ci '.', istr "io", .wb]),
   ("railway", wtok ["railway"]),
   ("render", rseq [.wb, istr "render", ci '.', istr "com", .wb]),
   ("pulumi", wtok ["pulumi"]),
   ("helm", wtok ["helm"]),
   ("argocd", rseq [.wb, istr "argo", wsS, istr "cd", .wb]),
   ("prometheus", wtok ["prometheus"]),
   ("grafana", wtok ["grafana"]),
   ("datadog", wtok ["datadog"]),
   ("newrelic", rseq [.wb, istr "new", wsS, istr "relic", .wb]),
   ("sentry", wtok ["sentry"]),
   ("pagerduty", wtok ["pagerduty"]),
   ("nginx", wtok ["nginx"]),
   ("apache", rseq [.wb, istr "apache", wsS,
      ropt (ralts [istr "http", istr "server"]), .wb]),
   ("caddy", wtok ["caddy"]),
   ("traefik", wtok ["traefik"]),
   ("pytorch", wtok ["pytorch"]),
   ("tensorflow", wtok ["tensorflow"]),
   ("llm", rseq [.wb, ralts [istr "llm",
      rseq [istr "large", wsS, istr "language", wsS, istr "model"],
      istr "gpt", istr "openai", istr "anthropic", istr "claude"], .wb]),
   ("machine-learning", rseq [.wb, ralts [
      rseq [istr "machine", wsS, istr "learning"], istr "ml"], .wb]),
   ("keras", wtok ["keras"]),
   ("scikit", rseq [.wb, istr "scikit", ropt sdC, istr "learn", .wb]),
   ("pandas", wtok ["pandas"]),
   ("numpy", wtok ["numpy"]),
   ("jupyter", wtok ["jupyter"]),
   ("huggingface", rseq [.wb, istr "hugging", wsS, istr "face", .wb]),
   ("langchain", wtok ["langchain"]),
   ("vector-db", rseq [.wb, ralts [istr "pinecone", istr "weaviate",
      istr "qdrant", istr "milvus", rseq [istr "chroma", wsS, istr "db"]], .wb]),
   ("mlops", wtok ["mlops"]),
   ("opencv", wtok ["opencv"]),
   ("spark", rseq [.wb, ropt (rseq [istr "apache", wsS]), istr "spark", .wb]),
   ("airflow", rseq [.wb, ropt (rseq [istr "apache", wsS]), istr "airflow", .wb]),
   ("dbt", wtok ["dbt"]),
   ("snowflake", wtok ["snowflake"]),
   ("databricks", wtok ["databricks"]),
   ("ray", rseq [.wb, istr "ray", wsS, ropt (istr "framework"), .wb]),
   ("rag", rseq [.wb, ralts [istr "rag",
      rseq [istr "retrieval", sdC, istr "augmented", sdC, istr "generation"]], .wb]),
   ("react-native", rseq [.wb, istr "react", .star sdC, istr "native", .wb]),
   ("flutter", wtok ["flutter"]),
   ("ios", wtok ["ios"]),
   ("android", wtok ["android"]),
   ("swiftui", wtok ["swiftui"]),
   ("jetpack", rseq [.wb, istr "jetpack", wsS, istr "compose", .wb]),
   ("xamarin", wtok ["xamarin"]),
   ("capacitor", wtok ["capacitor"]),
   ("ionic", wtok ["ionic"]),
   ("expo", wtok ["expo"]),
   ("solidity", wtok ["solidity"]),
   ("web3", wtok ["web3"]),
   ("ethereum", wtok ["ethereum"]),
   ("blockchain", wtok ["blockchain"]),
   ("hardhat", wtok ["hardhat"]),
   ("foundry", wtok ["foundry"]),
   ("solana", wtok ["solana"]),
   ("cosmwasm", wtok ["cosmwasm"]),
   ("substrate", wtok ["substrate"]),
   ("polkadot", wtok ["polkadot"]),
   ("kafka", rseq [.wb, ropt (rseq [istr "apache", wsS]), istr "kafka", .wb]),
   ("rabbitmq", wtok ["rabbitmq"]),
   ("sqs", rseq [.wb, ropt (rseq [istr "aws", wsS]), istr "sqs", .wb]),
   ("pubsub", rseq [.wb, ralts [rseq [istr "pub", wsS, istr "sub"],
      rseq [istr "google", wsS, istr "pub", wsS, istr "sub"]], .wb]),
   ("nats", wtok ["nats"]),
   ("zeromq", wtok ["zeromq", "zmq"]),
   ("celery", wtok ["celery"]),
   ("bullmq", rseq [.wb, istr "bull", wsS, istr "mq", .wb]),
   ("jest", wtok ["jest"]),
   ("cypress", wtok ["cypress"]),
   ("playwright", wtok ["playwright"]),
   ("selenium", wtok ["selenium"]),
   ("pytest", wtok ["pytest"]),
   ("rspec", wtok ["rspec"]),
   ("mocha", wtok ["mocha"]),
   ("vitest", wtok ["vitest"]),
   ("graphql", wtok ["graphql"]),
   ("rest", rseq [.wb, ralts [rseq [istr "rest", wsS, istr "api"],
      istr "restful"], .wb]),
   ("grpc", wtok ["grpc"]),
   ("websocket", wtok ["websocket"]),
   ("tailwind", rseq [.wb, istr "tailwindcs", ropt (ci 's'), .wb]),
   ("sass", wtok ["sass", "scss"]),
   ("webpack", wtok ["webpack"]),
   ("vite", wtok ["vite"]),
   ("esbuild", wtok ["esbuild"]),
   ("rollup", wtok ["rollup"]),
   ("parcel", wtok ["parcel"]),
   ("turbo", rseq [.wb, istr "turbo", ropt (ralts [istr "repo", istr "pack"]), .wb]),
   ("bun", wtok ["bun"]),
   ("deno", wtok ["deno"]),
   ("storybook", wtok ["storybook"]),
   ("figma", wtok ["figma"]),
   ("git", wtok ["git"]),
   ("linux", wtok ["linux"]),
   ("unix", wtok ["unix"]),
   ("bash", wtok ["bash"]),
   ("zsh", wtok ["zsh"]),
   ("vim", rseq [.wb, ropt (istr "neo"), istr "vim", .wb]),
   ("emacs", wtok ["emacs"]),
   ("vscode", rseq [.wb, istr "vs", wsS, istr "code", .wb]),
   ("oauth", wtok ["oauth"]),
   ("jwt", wtok ["jwt"]),
   ("saml", wtok ["saml"]),
   ("sso", wtok ["sso"]),
   ("stripe", wtok ["stripe"]),
   ("twilio", wtok ["twilio"]),
   ("sendgrid", wtok ["sendgrid"]),
   ("segment", wtok ["segment"]),
   ("amplitude", wtok ["amplitude"]),
   ("mixpanel", wtok ["mixpanel"])]

/-- `extractTechStack`: every tag whose pattern tests true, in table order. -/
def extractTechStack (text : String) : List String :=
  (TECH_PATTERNS.filter (fun e => reTest e.2 text.data)).map (fun e => e.1)

/-- `EXPERIENCE_PATTERNS.junior`. -/
def expJunior : RE :=
  rseq [.wb, ralts [istr "junior",
    rseq [istr "entry", .star sdC, istr "level"],
    rseq [istr "0-2", wsS, yearsS], rseq [istr "1-2", wsS, yearsS],
    rseq [istr "new", wsS, istr "grad"], istr "graduate"], .wb]

/-- `EXPERIENCE_PATTERNS.mid`. -/
def expMid : RE :=
  rseq [.wb, ralts [rseq [istr "mid", .star sdC, istr "level"],
    istr "intermediate",
    rseq [istr "3-5", wsS, yearsS], rseq [istr "2-4", wsS, yearsS]], .wb]

/-- `EXPERIENCE_PATTERNS.senior`. -/
def expSenior : RE :=
  rseq [.wb, ralts [istr "senior", rseq [istr "sr", ropt (ci '.')],
    rseq [istr "5", ropt (ci '+'), wsS, yearsS],
    rseq [istr "6", ropt (ci '+'), wsS, yearsS],
    rseq [istr "7", ropt (ci '+'), wsS, yearsS],
    istr "experienced"], .wb]

/-- `EXPERIENCE_PATTERNS.lead`. -/
def expLead : RE :=
  rseq [.wb, ralts [istr "lead", istr "principal", istr "staff",
    istr "architect", istr "manager", istr "director",
    rseq [istr "head", wsS, istr "of"]], .wb]

/-- `detectExperienceLevel`: lead, senior, mid, junior — first match wins. -/
def detectExperienceLevel (text : String) : Option ExperienceLevel :=
  if reTest expLead text.data then some .lead
  else if reTest expSenior text.data then some .senior
  else if reTest expMid text.data then some .mid
  else if reTest expJunior text.data then some .junior
  else none

/-- `CONTRACT_PATTERNS['full-time']`. -/
def ctFullTime : RE :=
  rseq [.wb, ralts [rseq [istr "full", .star sdC, istr "time"],
    istr "permanent", istr "fte"], .wb]

/-- `CONTRACT_PATTERNS['part-time']`. -/
def ctPartTime : RE :=
  rseq [.wb, rseq [istr "part", .star sdC, istr "time"], .wb]

/-- `CONTRACT_PATTERNS.contract`. -/
def ctContract : RE :=
  rseq [.wb, ralts [istr "contract", istr "contractor", istr "c2c",
    rseq [istr "corp", .star sdC, istr "to", .star sdC, istr "corp"]], .wb]

/-- `CONTRACT_PATTERNS.freelance`. -/
def ctFreelance : RE :=
  rseq [.wb, ralts [istr "freelance", istr "freelancer", istr "gig",
    rseq [istr "project", .star sdC, istr "based"]], .wb]

/-- `detectContractType`: freelance, contract, part-time, full-time — first
match wins. -/
def detectContractType (text : String) : Option CContractType :=
  if reTest ctFreelance text.data then some .freelance
  else if reTest ctContract text.data then some .contract
  else if reTest ctPartTime text.data then some .partTime
  else if reTest ctFullTime text.data then some .fullTime
  else none

/-! ### `cleanJobListing` -/

/-- `job.description ? stripHTML(job.description) : null` (the empty string
is falsy). -/
def cleanDesc (d : Option String) : Option String :=
  match d with
  | none => none
  | some s => if s = "" then none else some (stripHTML s)

/-- `job.company ? cleanCompanyName(job.company) : null`. -/
def cleanComp (c : Option String) : Option String :=
  match c with
  | none => none
  | some s => if s = "" then none else some (cleanCompanyName (some s))

/-- `job.title ? cleanText(job.title) : job.title`. -/
def cleanTitleF (t : String) : String :=
  if t = "" then t else cleanText t

/-- `textForAnalysis`, i.e. `` `${cleanedTitle || ''} ${cleanedDescription || ''}` `` —
the text the signal extractors see. -/
def analysisText (job : JobListing) : String :=
  cleanTitleF job.title ++ " " ++ (cleanDesc job.description).getD ""

/-- The salary fields after the fill-if-missing step of `cleanJobListing`:
when `salary_min` is null and the cleaned description is non-empty (JS
truthiness), a successful extraction provides all four fields; otherwise the
input fields pass through unchanged. -/
def salaryResolve (job : JobListing) :
    Option ℚ × Option ℚ × Option String × Option SalaryType :=
  match (if job.salary_min = none then
          match cleanDesc job.description with
          | some d => if d = "" then none else extractSalaryFromText d
          | none => none
        else none) with
  | some ex => (ex.min, ex.max, some ex.currency, some ex.type)
  | none => (job.salary_min, job.salary_max, job.salary_currency, job.salary_type)

/-- `cleanJobListing`: clean the text fields, extract salary from the
cleaned description when `salary_min` is null, merge the detected tech stack,
fill null experience/contract classifications, normalize the location; all
other fields (id, platform, external_id, url, tags, remote_type, timezone,
posted_at, fetched_at, raw) pass through the spread unchanged. -/
def cleanJobListing (job : JobListing) : JobListing :=
  { job with
    title := cleanTitleF job.title
    company := cleanComp job.company
    description := cleanDesc job.description
    salary_min := (salaryResolve job).1
    salary_max := (salaryResolve job).2.1
    salary_currency := (salaryResolve job).2.2.1
    salary_type := (salaryResolve job).2.2.2
    tech_stack := jsSetUnion job.tech_stack (extractTechStack (analysisText job))
    experience_level := jsNullish job.experience_level
      (detectExperienceLevel (analysisText job))
    contract_type := jsNullish job.contract_type
      (detectContractType (analysisText job))
    location := normalizeLocation job.location }

end Clean

/-! ## `dedupe.ts` -/

namespace Dedupe

open Enrich

/-- `SIMILARITY_THRESHOLD = 0.85` (written with `mkRat` so it evaluates in the
kernel). -/
def SIMILARITY_THRESHOLD : ℚ := mkRat 85 100

structure DedupeKey where
  normalizedCompany : String
  normalizedTitle : String
deriving DecidableEq, Repr

def getDedupeKey (job : JobListing) : DedupeKey :=
  { normalizedCompany := Enrich.normalizeCompanyName job.company
    normalizedTitle := Enrich.normalizeTitle job.title }

/-- `areSimilar`: both company similarity and title similarity must reach the
threshold. -/
def areSimilar (a b : DedupeKey) : Bool :=
  if similarityScore a.normalizedCompany b.normalizedCompany < SIMILARITY_THRESHOLD then
    false
  else if similarityScore a.normalizedTitle b.normalizedTitle < SIMILARITY_THRESHOLD then
    false
  else true

/-- `SOURCE_PRIORITY` ranking table. -/
def SOURCE_PRIORITY : List (String × Nat) :=
  [("hn", 4), ("wwr", 3), ("jobicy", 2), ("himalayas", 1)]

/-- `SOURCE_PRIORITY[job.platform] ?? 0`. -/
def sourcePriority (platform : String) : Nat :=
  ((SOURCE_PRIORITY.find? (fun e => e.1 == platform)).map (·.2)).getD 0

/-- `getPriority`: base source priority plus the completeness bonus (salary
known +2, description longer than 200 characters +1, more than 2 tech-stack
entries +1), summed into a single score. -/
def getPriority (job : JobListing) : Nat :=
  let base := sourcePriority job.platform
  let b1 := if job.salary_min ≠ none then 2 else 0
  let b2 := match job.description with
            | some d => if 200 < d.length then 1 else 0
            | none => 0
  let b3 := if 2 < job.tech_stack.length then 1 else 0
  base + b1 + b2 + b3

/-- `new Date(posted_at).getTime()` with `null` mapped to 0, on the
epoch-millisecond abstraction of timestamps. -/
def dateValue (job : JobListing) : Nat := job.posted_at.getD 0

/-- Does `a` strictly precede `b` under the sort comparator of
`selectBestJob` (priority descending, then date descending)? -/
def jobBeats (a b : JobListing) : Bool :=
  getPriority b < getPriority a ||
  (getPriority a == getPriority b && dateValue b < dateValue a)

/-- `selectBestJob`: the source sorts with a stable sort by the comparator and
takes element 0; the first element of that stable sort is the earliest element
that is maximal in the lexicographic (priority, date) order, which this fold
computes (ties keep the earlier element). -/
def selectBestJob : List JobListing → Option JobListing
  | [] => none
  | j :: tl => some (tl.foldl (fun best x => if jobBeats x best then x else best) j)

/-- The inner loop of `deduplicateJobs`: scan the records after the seed, skip
records whose id is already processed, and add every record similar to the
seed's key, marking it processed.  Returns the added records (in scan order)
and the grown processed set. -/
def gatherCluster (seedKey : DedupeKey) (rest : List JobListing)
    (processed : List String) : List JobListing × List String :=
  match rest with
  | [] => ([], processed)
  | j :: tl =>
    if j.id ∈ processed then gatherCluster seedKey tl processed
    else if areSimilar seedKey (getDedupeKey j) then
      (j :: (gatherCluster seedKey tl (j.id :: processed)).1,
       (gatherCluster seedKey tl (j.id :: processed)).2)
    else gatherCluster seedKey tl processed

/-- The outer loop of `deduplicateJobs`: every record not yet processed seeds
a new cluster consisting of itself plus the similar records gathered from the
remainder of the batch. -/
def buildClusters : List JobListing → List String → List (List JobListing)
  | [], _ => []
  | j :: tl, processed =>
    if j.id ∈ processed then buildClusters tl processed
    else
      (j :: (gatherCluster (getDedupeKey j) tl (j.id :: processed)).1) ::
        buildClusters tl (gatherCluster (getDedupeKey j) tl (j.id :: processed)).2

structure DupGroup where
  kept : JobListing
  removed : List JobListing
deriving DecidableEq, Repr

structure DedupeStats where
  totalInput : Int
  totalUnique : Int
  totalDuplicates : Int
deriving DecidableEq, Repr

structure DedupeResult where
  unique : List JobListing
  duplicates : List DupGroup
  stats : DedupeStats
deriving DecidableEq, Repr

/-- The result-building loop: singleton clusters contribute their sole member
to `unique`; larger clusters contribute the selected best record to `unique`
and a duplicate-report entry whose `removed` list filters out the best
record's id. -/
def processClusters : List (List JobListing) → List JobListing × List DupGroup
  | [] => ([], [])
  | c :: rest =>
    match c with
    | [x] => (x :: (processClusters rest).1, (processClusters rest).2)
    | _ =>
      match selectBestJob c with
      | some best =>
        (best :: (processClusters rest).1,
         { kept := best, removed := c.filter (fun j => j.id ≠ best.id) } ::
           (processClusters rest).2)
      | none => processClusters rest

/-- `deduplicateJobs`. -/
def deduplicateJobs (jobs : List JobListing) : DedupeResult :=
  let clusters := buildClusters jobs []
  { unique := (processClusters clusters).1
    duplicates := (processClusters clusters).2
    stats :=
      { totalInput := jobs.length
        totalUnique := (processClusters clusters).1.length
        totalDuplicates := (jobs.length : Int) - (processClusters clusters).1.length } }

/-- `(x?.length ?? 0)` on a nullable string. -/
def descLen (d : Option String) : Nat :=
  match d with
  | none => 0
  | some s => s.length

/-- `mergeJobData`. -/
def mergeJobData (primary secondary : JobListing) : JobListing :=
  { primary with
    salary_min := jsNullish primary.salary_min secondary.salary_min
    salary_max := jsNullish primary.salary_max secondary.salary_max
    salary_currency := jsNullish primary.salary_currency secondary.salary_currency
    salary_type := jsNullish primary.salary_type secondary.salary_type
    tech_stack := jsSetUnion primary.tech_stack secondary.tech_stack
    tags := jsSetUnion primary.tags secondary.tags
    description :=
      if descLen secondary.description ≤ descLen primary.description then
        primary.description
      else secondary.description
    experience_level := jsNullish primary.experience_level secondary.experience_level
    contract_type := jsNullish primary.contract_type secondary.contract_type }

end Dedupe

/-! ## Concrete records used by witnesses and counterexamples -/

/-- A blank record from which concrete test inputs are built. -/
def baseJob : JobListing :=
  { id := "", platform := "", external_id := "", title := "", company := none,
    description := none, url := "", salary_min := none, salary_max := none,
    salary_currency := none, salary_type := none, contract_type := none,
    experience_level := none, location := none, remote_type := none,
    timezone := none, tech_stack := [], tags := [], posted_at := none,
    fetched_at := 0, raw := [] }

/-- An `hn` record with no salary (base priority 4, bonus 0). -/
def jobHN : JobListing :=
  { baseJob with
    id := "a"
    platform := "hn"
    title := "x" }

/-- A `wwr` record with a known salary (base priority 3, bonus 2). -/
def jobWWR : JobListing :=
  { baseJob with
    id := "b"
    platform := "wwr"
    title := "x"
    salary_min := some (mkRat 120000 1) }

/-- A record with a `null` company (malformed for matching purposes). -/
def jobNoCompanyA : JobListing :=
  { baseJob with
    id := "a"
    title := "x" }

/-- A second record with a `null` company and the same title. -/
def jobNoCompanyB : JobListing :=
  { baseJob with
    id := "b"
    title := "x" }

/-- Primary record for the merge counterexample: `null` description. -/
def mergePrimary : JobListing := baseJob

/-- Secondary record for the merge counterexample: empty (non-null)
description. -/
def mergeSecondary : JobListing :=
  { baseJob with description := some "" }

/-- An extraction result with min > max (both in range). -/
def exSwap : Clean.ExtractedSalary :=
  { min := some 5, max := some 3, currency := "USD", type := .yearly }

/-- An extraction result whose min is above the plausibility cap. -/
def exBig : Clean.ExtractedSalary :=
  { min := some 20000000, max := none, currency := "USD", type := .yearly }

/-- An extraction result whose max is above the plausibility cap. -/
def exBigMax : Clean.ExtractedSalary :=
  { min := some 1, max := some 20000000, currency := "USD", type := .yearly }

/-- A concrete capture map: group 1 is `5`, group 2 is `6`. -/
def gW : Nat → Option (List Char) :=
  fun n => if n = 1 then some ['5'] else if n = 2 then some ['6'] else none

/-- A record with a null `salary_min` but a fetcher-set `salary_max`, and a
description carrying an extractable hourly rate. -/
def jobSalaryMax : JobListing :=
  { baseJob with
    id := "a"
    title := "t"
    description := some "$50/hr"
    salary_max := some 1 }

/-- A record on which every guarded field of `cleanJobListing` is already
set. -/
def jobFull : JobListing :=
  { baseJob with
    id := "a"
    platform := "hn"
    external_id := "x"
    title := "t"
    url := "u"
    salary_min := some 1
    salary_max := some 2
    salary_currency := some "USD"
    salary_type := some .yearly
    contract_type := some .fullTime
    experience_level := some .senior
    tags := ["x"]
    posted_at := some 5
    fetched_at := 7
    raw := [("k", "v")] }

/-- A record whose description holds a doubly-encoded entity. -/
def jobAmp : JobListing :=
  { baseJob with
    id := "a"
    title := "t"
    description := some "&amp;lt;" }

/-- A minimal already-clean record (title only). -/
def jobTitleOnly : JobListing :=
  { baseJob with
    id := "a"
    title := "t" }

/-! ## Helper lemmas -/

theorem lexNat_trans {p1 p2 p3 d1 d2 d3 : Nat}
    (h1 : p1 < p2 ∨ (p1 = p2 ∧ d1 ≤ d2)) (h2 : p2 < p3 ∨ (p2 = p3 ∧ d2 ≤ d3)) :
    p1 < p3 ∨ (p1 = p3 ∧ d1 ≤ d3) := by omega

theorem jobBeats_lex {a b : JobListing} (h : Dedupe.jobBeats a b = true) :
    Dedupe.getPriority b < Dedupe.getPriority a ∨
      (Dedupe.getPriority b = Dedupe.getPriority a ∧
        Dedupe.dateValue b ≤ Dedupe.dateValue a) := by
  simp only [Dedupe.jobBeats, Bool.or_eq_true, Bool.and_eq_true, decide_eq_true_eq,
    beq_iff_eq] at h
  omega

theorem not_jobBeats_lex {a b : JobListing} (h : Dedupe.jobBeats a b = false) :
    Dedupe.getPriority a < Dedupe.getPriority b ∨
      (Dedupe.getPriority a = Dedupe.getPriority b ∧
        Dedupe.dateValue a ≤ Dedupe.dateValue b) := by
  simp only [Dedupe.jobBeats, Bool.or_eq_false_iff, Bool.and_eq_false_iff,
    decide_eq_false_iff_not, beq_eq_false_iff_ne, not_lt, ne_eq] at h
  rcases h with ⟨h1, h2⟩
  rcases h2 with h2 | h2
  · rcases Nat.lt_or_ge (Dedupe.getPriority a) (Dedupe.getPriority b) with hl | hl
    · exact Or.inl hl
    · omega
  · omega

/-- The fold that `selectBestJob` performs returns a member of the cluster
that is maximal in the lexicographic (summed priority, date) order; ties keep
the earlier record, as the stable sort of the source does. -/
theorem selectFold_spec (tl : List JobListing) (j : JobListing) :
    ∃ b, (tl.foldl (fun best x => if Dedupe.jobBeats x best then x else best) j) = b ∧
      b ∈ j :: tl ∧
      ∀ x ∈ j :: tl,
        Dedupe.getPriority x < Dedupe.getPriority b ∨
          (Dedupe.getPriority x = Dedupe.getPriority b ∧
            Dedupe.dateValue x ≤ Dedupe.dateValue b) := by
  induction tl generalizing j with
  | nil =>
    refine ⟨j, rfl, List.mem_singleton_self j, ?_⟩
    intro x hx
    rw [List.mem_singleton] at hx
    subst hx
    exact Or.inr ⟨rfl, le_refl _⟩
  | cons y tl ih =>
    obtain ⟨b, hb, hmem, hmax⟩ := ih (if Dedupe.jobBeats y j then y else j)
    refine ⟨b, hb, ?_, ?_⟩
    · rcases List.mem_cons.mp hmem with h | h
      · by_cases hby : Dedupe.jobBeats y j = true
        · rw [if_pos hby] at h
          exact h ▸ List.mem_cons_of_mem _ (List.mem_cons_self _ _)
        · rw [if_neg hby] at h
          exact h ▸ List.mem_cons_self _ _
      · exact List.mem_cons_of_mem _ (List.mem_cons_of_mem _ h)
    · intro x hx
      have hstep := hmax _ (List.mem_cons_self _ _)
      rcases List.mem_cons.mp hx with hxe | hx
      · -- x is the seed j (subst eliminates the seed's name in favour of x)
        subst hxe
        by_cases hby : Dedupe.jobBeats y x = true
        · rw [if_pos hby] at hstep
          exact lexNat_trans (jobBeats_lex hby) hstep
        · rw [if_neg hby] at hstep
          exact hstep
      · rcases List.mem_cons.mp hx with hxe | hx
        · -- x is the head y of the remaining scan
          subst hxe
          by_cases hby : Dedupe.jobBeats x j = true
          · rw [if_pos hby] at hstep
            exact hstep
          · rw [if_neg hby] at hstep
            have hbf : Dedupe.jobBeats x j = false := by simpa using hby
            exact lexNat_trans (not_jobBeats_lex hbf) hstep
        · exact hmax _ (List.mem_cons_of_mem _ hx)

theorem mem_dedupAcc {x : String} :
    ∀ (l seen : List String), x ∈ dedupAcc seen l ↔ x ∈ l ∧ x ∉ seen := by
  intro l
  induction l with
  | nil => intro seen; simp [dedupAcc]
  | cons y l ih =>
    intro seen
    by_cases hy : y ∈ seen
    · rw [dedupAcc, if_pos hy, ih]
      constructor
      · rintro ⟨h1, h2⟩
        exact ⟨List.mem_cons_of_mem _ h1, h2⟩
      · rintro ⟨h1, h2⟩
        rcases List.mem_cons.mp h1 with rfl | h1
        · exact absurd hy h2
        · exact ⟨h1, h2⟩
    · rw [dedupAcc, if_neg hy]
      constructor
      · intro h
        rcases List.mem_cons.mp h with rfl | h
        · exact ⟨List.mem_cons_self _ _, hy⟩
        · have := (ih _).mp h
          refine ⟨List.mem_cons_of_mem _ this.1, fun hc => this.2 ?_⟩
          exact List.mem_cons_of_mem _ hc
      · rintro ⟨h1, h2⟩
        rcases List.mem_cons.mp h1 with rfl | h1
        · exact List.mem_cons_self _ _
        · by_cases hxy : x = y
          · subst hxy; exact List.mem_cons_self _ _
          · refine List.mem_cons_of_mem _ ((ih _).mpr ⟨h1, ?_⟩)
            intro hc
            rcases List.mem_cons.mp hc with h | h
            · exact hxy h
            · exact h2 h

theorem nodup_dedupAcc : ∀ (l seen : List String), (dedupAcc seen l).Nodup := by
  intro l
  induction l with
  | nil => intro seen; simp [dedupAcc]
  | cons y l ih =>
    intro seen
    by_cases hy : y ∈ seen
    · rw [dedupAcc, if_pos hy]; exact ih seen
    · rw [dedupAcc, if_neg hy]
      refine List.Nodup.cons ?_ (ih (y :: seen))
      intro hc
      exact ((mem_dedupAcc _ _).mp hc).2 (List.mem_cons_self _ _)

theorem mem_jsSetUnion {x : String} {a b : List String} :
    x ∈ jsSetUnion a b ↔ x ∈ a ∨ x ∈ b := by
  rw [jsSetUnion, mem_dedupAcc]
  simp

theorem nodup_jsSetUnion (a b : List String) : (jsSetUnion a b).Nodup :=
  nodup_dedupAcc _ _

namespace Enrich

theorem lev_comm : ∀ xs ys : List Char, lev xs ys = lev ys xs := by
  intro xs ys
  induction xs, ys using lev.induct with
  | case1 ys =>
    cases ys with
    | nil => rfl
    | cons y ys => simp [lev]
  | case2 xs h =>
    cases xs with
    | nil => rfl
    | cons x xs => simp [lev]
  | case3 x xs y ys ih1 ih2 ih3 =>
    simp only [lev]
    rw [ih1, ih2, ih3]
    have hc : (if x = y then 0 else 1) = (if y = x then 0 else 1) := by
      simp [eq_comm]
    rw [hc, min_comm (lev (y :: ys) xs + 1) (lev ys (x :: xs) + 1)]

theorem lev_le_max : ∀ xs ys : List Char, lev xs ys ≤ max xs.length ys.length := by
  intro xs ys
  induction xs, ys using lev.induct with
  | case1 ys => simp [lev]
  | case2 xs h => simp [lev]
  | case3 x xs y ys ih1 ih2 ih3 =>
    simp only [lev, List.length_cons]
    calc min (min (lev xs (y :: ys) + 1) (lev (x :: xs) ys + 1))
          (lev xs ys + if x = y then 0 else 1)
        ≤ lev xs ys + (if x = y then 0 else 1) := min_le_right _ _
      _ ≤ max xs.length ys.length + 1 := by
          have := ih3
          split <;> omega
      _ ≤ max (xs.length + 1) (ys.length + 1) := by
          rcases Nat.le_total xs.length ys.length with hmx | hmx
          · rw [Nat.max_eq_right hmx, Nat.max_eq_right (Nat.succ_le_succ hmx)]
          · rw [Nat.max_eq_left hmx, Nat.max_eq_left (Nat.succ_le_succ hmx)]

theorem similarityScore_comm (a b : String) :
    similarityScore a b = similarityScore b a := by
  by_cases hab : a = b
  · subst hab; rfl
  · have hba : b ≠ a := fun h => hab h.symm
    unfold similarityScore
    rw [if_neg hab, if_neg hba]
    by_cases h0 : a.length = 0 ∨ b.length = 0
    · rw [if_pos h0, if_pos (Or.symm h0)]
    · rw [if_neg h0, if_neg (fun h => h0 (Or.symm h))]
      by_cases hinc : (strIncludes a.data b.data || strIncludes b.data a.data) = true
      · rw [if_pos hinc, if_pos (by rw [Bool.or_comm]; exact hinc)]
      · rw [if_neg hinc, if_neg (by rw [Bool.or_comm]; exact hinc)]
        rw [lev_comm, max_comm a.length b.length]

theorem similarityScore_range (a b : String) :
    0 ≤ similarityScore a b ∧ similarityScore a b ≤ 1 := by
  unfold similarityScore
  split_ifs with h1 h2 h3
  · norm_num
  · norm_num
  · rw [Rat.mkRat_eq_div]; norm_num
  · push_neg at h2
    have hm : 0 < max a.length b.length :=
      lt_max_iff.mpr (Or.inl (Nat.pos_of_ne_zero h2.1))
    have hmq : (0 : ℚ) < ((max a.length b.length : ℕ) : ℚ) := by
      exact_mod_cast hm
    have hd : (lev a.data b.data : ℚ) ≤ ((max a.length b.length : ℕ) : ℚ) := by
      have := lev_le_max a.data b.data
      have hla : a.data.length = a.length := rfl
      have hlb : b.data.length = b.length := rfl
      rw [hla, hlb] at this
      exact_mod_cast this
    have hnn : (0 : ℚ) ≤ (lev a.data b.data : ℚ) := by positivity
    constructor
    · have : (lev a.data b.data : ℚ) / ((max a.length b.length : ℕ) : ℚ) ≤ 1 :=
        (div_le_one hmq).mpr hd
      linarith
    · have : 0 ≤ (lev a.data b.data : ℚ) / ((max a.length b.length : ℕ) : ℚ) :=
        div_nonneg hnn hmq.le
      linarith

end Enrich

namespace Dedupe

theorem gather_fst (k : DedupeKey) :
    ∀ (rest : List JobListing) (p : List String),
      (rest.map (fun j => j.id)).Nodup →
      (gatherCluster k rest p).1 =
        rest.filter (fun j => decide (j.id ∉ p) && areSimilar k (getDedupeKey j)) := by
  intro rest
  induction rest with
  | nil => intro p _; simp [gatherCluster]
  | cons j tl ih =>
    intro p hnd
    rw [List.map_cons, List.nodup_cons] at hnd
    obtain ⟨hj, hnd⟩ := hnd
    by_cases hp : j.id ∈ p
    · simp only [gatherCluster, if_pos hp]
      rw [ih p hnd, List.filter_cons_of_neg (by simp [hp])]
    · by_cases hs : areSimilar k (getDedupeKey j) = true
      · simp only [gatherCluster, if_neg hp, if_pos hs]
        rw [ih (j.id :: p) hnd, List.filter_cons_of_pos (by simp [hp, hs])]
        congr 1
        apply List.filter_congr
        intro x hx
        have hne : x.id ≠ j.id := by
          intro he
          exact hj (he ▸ List.mem_map_of_mem (fun j => j.id) hx)
        simp [List.mem_cons, hne]
      · simp only [gatherCluster, if_neg hp, if_neg hs]
        rw [ih p hnd, List.filter_cons_of_neg (by simp [hs])]

theorem gather_snd (k : DedupeKey) :
    ∀ (rest : List JobListing) (p : List String),
      (gatherCluster k rest p).2 =
        ((gatherCluster k rest p).1.map (fun j => j.id)).reverse ++ p := by
  intro rest
  induction rest with
  | nil => intro p; simp [gatherCluster]
  | cons j tl ih =>
    intro p
    by_cases hp : j.id ∈ p
    · simp only [gatherCluster, if_pos hp]
      exact ih p
    · by_cases hs : areSimilar k (getDedupeKey j) = true
      · simp only [gatherCluster, if_neg hp, if_pos hs]
        rw [ih (j.id :: p)]
        simp [List.append_assoc]
      · simp only [gatherCluster, if_neg hp, if_neg hs]
        exact ih p

theorem filter_split_perm {α : Type} (P Q : α → Bool) :
    ∀ l : List α,
      ((l.filter fun x => P x && Q x) ++ (l.filter fun x => P x && !Q x)).Perm
        (l.filter P) := by
  intro l
  induction l with
  | nil => simp
  | cons x l ih =>
    by_cases hP : P x = true
    · by_cases hQ : Q x = true
      · rw [List.filter_cons_of_pos (by simp [hP, hQ]),
            List.filter_cons_of_neg (by simp [hP, hQ]),
            List.filter_cons_of_pos hP, List.cons_append]
        exact ih.cons x
      · rw [List.filter_cons_of_neg (by simp [hP, hQ]),
            List.filter_cons_of_pos (by simp [hP, hQ]),
            List.filter_cons_of_pos hP]
        exact List.perm_middle.trans (ih.cons x)
    · rw [List.filter_cons_of_neg (by simp [hP]),
          List.filter_cons_of_neg (by simp [hP]),
          List.filter_cons_of_neg (by simpa using hP)]
      exact ih

theorem cons_filter_ne_perm :
    ∀ (c : List JobListing) (x : JobListing), x ∈ c →
      (c.map (fun j => j.id)).Nodup →
      c.Perm (x :: c.filter (fun j => decide (j.id ≠ x.id))) := by
  intro c
  induction c with
  | nil => intro x hx; exact absurd hx (List.not_mem_nil x)
  | cons a c ih =>
    intro x hx hnd
    rw [List.map_cons, List.nodup_cons] at hnd
    obtain ⟨ha, hnd⟩ := hnd
    rcases List.mem_cons.mp hx with hxe | hx
    · rw [hxe]
      rw [List.filter_cons_of_neg (by simp)]
      have : c.filter (fun j => decide (j.id ≠ a.id)) = c := by
        apply List.filter_eq_self.mpr
        intro y hy
        simp only [decide_eq_true_eq]
        intro he
        exact ha (he ▸ List.mem_map_of_mem (fun j => j.id) hy)
      rw [this]
    · have hax : (decide (a.id ≠ x.id)) = true := by
        simp only [decide_eq_true_eq]
        intro he
        exact ha (he ▸ List.mem_map_of_mem (fun j => j.id) hx)
      rw [List.filter_cons_of_pos (p := fun (j : JobListing) => decide (j.id ≠ x.id)) hax]
      exact ((ih x hx hnd).cons a).trans (List.Perm.swap x a _)

theorem buildClusters_join_perm :
    ∀ (l : List JobListing) (p : List String), (l.map (fun j => j.id)).Nodup →
      (buildClusters l p).flatten.Perm (l.filter (fun j => decide (j.id ∉ p))) := by
  intro l
  induction l with
  | nil => intro p _; simp [buildClusters]
  | cons j tl ih =>
    intro p hnd
    rw [List.map_cons, List.nodup_cons] at hnd
    obtain ⟨hj, hnd⟩ := hnd
    by_cases hp : j.id ∈ p
    · simp only [buildClusters, if_pos hp]
      rw [List.filter_cons_of_neg (by simp [hp])]
      exact ih p hnd
    · simp only [buildClusters, if_neg hp]
      rw [List.filter_cons_of_pos (by simp [hp])]
      rw [List.flatten_cons, List.cons_append]
      have hcfst := gather_fst (getDedupeKey j) tl (j.id :: p) hnd
      have hsnd := gather_snd (getDedupeKey j) tl (j.id :: p)
      -- membership in the grown processed set
      have hmemp' : ∀ x ∈ tl,
          (x.id ∈ (gatherCluster (getDedupeKey j) tl (j.id :: p)).2) ↔
          ((x.id ∉ p ∧ areSimilar (getDedupeKey j) (getDedupeKey x) = true) ∨ x.id ∈ p) := by
        intro x hx
        have hne : x.id ≠ j.id := fun he =>
          hj (he ▸ List.mem_map_of_mem (fun j => j.id) hx)
        rw [hsnd]
        simp only [List.mem_append, List.mem_reverse, List.mem_cons]
        constructor
        · rintro (hin | hin | hin)
          · -- x.id is the id of some gathered record
            rw [hcfst] at hin
            rcases List.mem_map.mp hin with ⟨y, hy, hye⟩
            rcases List.mem_filter.mp hy with ⟨hytl, hycond⟩
            have : y = x := List.inj_on_of_nodup_map hnd hytl hx hye
            subst this
            simp only [Bool.and_eq_true] at hycond
            obtain ⟨h1, h2⟩ := hycond
            simp only [decide_eq_true_eq, List.mem_cons] at h1
            exact Or.inl ⟨fun hip => h1 (Or.inr hip), h2⟩
          · exact absurd hin hne
          · exact Or.inr hin
        · rintro (⟨hnp, hsim⟩ | hin)
          · refine Or.inl ?_
            rw [hcfst]
            refine List.mem_map.mpr ⟨x, List.mem_filter.mpr ⟨hx, ?_⟩, rfl⟩
            simp [List.mem_cons, hne, hnp, hsim]
          · exact Or.inr (Or.inr hin)
      -- the recursive clusters cover exactly the unprocessed, dissimilar records
      have hIH := ih (gatherCluster (getDedupeKey j) tl (j.id :: p)).2 hnd
      have hfiltereq :
          tl.filter (fun x =>
            decide (x.id ∉ (gatherCluster (getDedupeKey j) tl (j.id :: p)).2)) =
          tl.filter (fun x => decide (x.id ∉ p) &&
            !areSimilar (getDedupeKey j) (getDedupeKey x)) := by
        apply List.filter_congr
        intro x hx
        have hiff := hmemp' x hx
        by_cases h1 : x.id ∈ p
        · simp [h1, hiff]
        · by_cases h2 : areSimilar (getDedupeKey j) (getDedupeKey x) = true
          · simp [h1, h2, hiff]
          · simp [h1, h2, hiff]
      rw [hfiltereq] at hIH
      have hceq : (gatherCluster (getDedupeKey j) tl (j.id :: p)).1 =
          tl.filter (fun x => decide (x.id ∉ p) &&
            areSimilar (getDedupeKey j) (getDedupeKey x)) := by
        rw [hcfst]
        apply List.filter_congr
        intro x hx
        have hne : x.id ≠ j.id := fun he =>
          hj (he ▸ List.mem_map_of_mem (fun j => j.id) hx)
        simp [List.mem_cons, hne]
      refine List.Perm.cons j ?_
      refine (hIH.append_left _).trans ?_
      rw [hceq]
      exact filter_split_perm (fun x => decide (x.id ∉ p))
        (fun x => areSimilar (getDedupeKey j) (getDedupeKey x)) tl

theorem processClusters_perm :
    ∀ cls : List (List JobListing),
      (∀ c ∈ cls, (c.map (fun j => j.id)).Nodup) →
      ((processClusters cls).1 ++
        (((processClusters cls).2.map (fun d => d.removed)).flatten)).Perm cls.flatten := by
  intro cls
  induction cls with
  | nil => simp [processClusters]
  | cons c rest ih =>
    intro hnd
    have hc := hnd c (List.mem_cons_self _ _)
    have hrest := fun c' h => hnd c' (List.mem_cons_of_mem _ h)
    match c with
    | [] =>
      simp only [processClusters, selectBestJob, List.flatten_cons, List.nil_append]
      exact ih hrest
    | [x] =>
      simp only [processClusters, List.flatten_cons, List.cons_append, List.singleton_append]
      exact (ih hrest).cons x
    | x :: y :: tl =>
      obtain ⟨b, hb, hmem, -⟩ := selectFold_spec (y :: tl) x
      have hsel : selectBestJob (x :: y :: tl) = some b := by
        rw [selectBestJob, hb]
      simp only [processClusters, hsel, List.flatten_cons, List.map_cons, List.cons_append]
      have hcperm := cons_filter_ne_perm (x :: y :: tl) b hmem hc
      have hstep1 :
          ((processClusters rest).1 ++
            ((x :: y :: tl).filter (fun j => decide (j.id ≠ b.id)) ++
              (((processClusters rest).2.map (fun d => d.removed)).flatten))).Perm
          ((x :: y :: tl).filter (fun j => decide (j.id ≠ b.id)) ++
            ((processClusters rest).1 ++
              (((processClusters rest).2.map (fun d => d.removed)).flatten))) := by
        rw [← List.append_assoc, ← List.append_assoc]
        exact (List.perm_append_comm).append_right _
      refine (List.Perm.cons b hstep1).trans ?_
      exact List.Perm.append hcperm.symm (ih hrest)

theorem processClusters_kept :
    ∀ cls : List (List JobListing),
      ∀ d ∈ (processClusters cls).2, d.kept ∈ (processClusters cls).1 := by
  intro cls
  induction cls with
  | nil => simp [processClusters]
  | cons c rest ih =>
    intro d hd
    match c with
    | [] =>
      simp only [processClusters, selectBestJob] at hd ⊢
      exact ih d hd
    | [x] =>
      simp only [processClusters] at hd ⊢
      exact List.mem_cons_of_mem _ (ih d hd)
    | x :: y :: tl =>
      obtain ⟨b, hb, hmem, -⟩ := selectFold_spec (y :: tl) x
      have hsel : selectBestJob (x :: y :: tl) = some b := by
        rw [selectBestJob, hb]
      simp only [processClusters, hsel, List.mem_cons] at hd ⊢
      rcases hd with hd | hd
      · exact Or.inl (by rw [hd])
      · exact Or.inr (ih d hd)

end Dedupe

theorem string_length_ne_zero {a : String} (h : a ≠ "") : a.length ≠ 0 := by
  intro h0
  apply h
  cases a with
  | mk data =>
    cases data with
    | nil => rfl
    | cons c cs => simp [String.length] at h0

theorem mkRat_nine_tenths : mkRat 9 10 = 9/10 := by
  rw [Rat.mkRat_eq_div]; norm_num

theorem jsNullish_of_ne {α : Type} {x y : Option α} (h : x ≠ none) :
    jsNullish x y = x := by
  cases x with
  | none => exact absurd rfl h
  | some v => rfl

theorem flatten_map_nodup {α β : Type} {f : α → β} :
    ∀ cls : List (List α), ((cls.flatten).map f).Nodup →
      ∀ c ∈ cls, (c.map f).Nodup := by
  intro cls
  induction cls with
  | nil => simp
  | cons c rest ih =>
    intro hnd c' hc'
    rw [List.flatten_cons, List.map_append] at hnd
    rcases List.mem_cons.mp hc' with he | hc'
    · exact he ▸ (List.Nodup.of_append_left hnd)
    · exact ih (List.Nodup.of_append_right hnd) c' hc'

theorem ratMulNat_eq (v : ℚ) (k : Nat) : Clean.ratMulNat v k = v * k := by
  rw [Clean.ratMulNat, Rat.mkRat_eq_div]
  push_cast
  rw [mul_div_right_comm, Rat.num_div_den]

theorem toNat_ofNat_valid {n : Nat} (h : n < 55296) :
    (Char.ofNat n).toNat = n := by
  rw [Char.ofNat, dif_pos (show n.isValidChar from Or.inl h)]
  rfl

theorem foldC_amp {c : Char} (h : foldC c = Char.ofNat 38) :
    c = Char.ofNat 38 := by
  by_cases hc : (65 ≤ c.toNat && c.toNat ≤ 90) = true
  · exfalso
    rw [foldC, if_pos hc] at h
    simp only [Bool.and_eq_true, decide_eq_true_eq] at hc
    have hv : (Char.ofNat (c.toNat + 32)).toNat = c.toNat + 32 :=
      toNat_ofNat_valid (by omega)
    rw [h] at hv
    have h38 : (Char.ofNat 38).toNat = 38 := toNat_ofNat_valid (by omega)
    omega
  · rw [foldC, if_neg hc] at h
    exact h

theorem eqCI_amp {c : Char} (h : eqCI c (Char.ofNat 38) = true) :
    c = Char.ofNat 38 := by
  rw [eqCI, beq_iff_eq] at h
  have h2 : foldC (Char.ofNat 38) = Char.ofNat 38 := by decide
  rw [h2] at h
  exact foldC_amp h

theorem startsWithCI_amp_false {ps rest : List Char} {c : Char}
    (hc : c ≠ Char.ofNat 38) :
    startsWithCI (Char.ofNat 38 :: ps) (c :: rest) = false := by
  rw [startsWithCI]
  cases heq : eqCI c (Char.ofNat 38) with
  | true => exact absurd (eqCI_amp heq) hc
  | false => rfl

theorem replaceLiteralCIF_no_amp (ps repl : List Char) :
    ∀ (fuel : Nat) (s : List Char), (∀ c ∈ s, c ≠ Char.ofNat 38) →
      Clean.replaceLiteralCIF (Char.ofNat 38 :: ps) repl fuel s = s := by
  intro fuel
  induction fuel with
  | zero => intro s _; cases s <;> rfl
  | succ fuel ih =>
    intro s h
    cases s with
    | nil => rfl
    | cons c rest =>
      have hc : c ≠ Char.ofNat 38 := h c (List.mem_cons_self _ _)
      have hcond : ¬((Char.ofNat 38 :: ps) ≠ [] ∧
          startsWithCI (Char.ofNat 38 :: ps) (c :: rest) = true) := by
        rintro ⟨-, h2⟩
        rw [startsWithCI_amp_false hc] at h2
        exact Bool.noConfusion h2
      rw [Clean.replaceLiteralCIF, if_neg hcond,
        ih rest (fun d hd => h d (List.mem_cons_of_mem _ hd))]

theorem foldl_replace_no_amp :
    ∀ (tbl : List (String × String)) (s : List Char),
      (∀ e ∈ tbl, e.1.data.head? = some (Char.ofNat 38)) →
      (∀ c ∈ s, c ≠ Char.ofNat 38) →
      tbl.foldl (fun acc e => Clean.replaceLiteralCI e.1.data e.2.data acc) s
        = s := by
  intro tbl
  induction tbl with
  | nil => intro s _ _; rfl
  | cons e tbl ih =>
    intro s htbl hs
    have hhd := htbl e (List.mem_cons_self _ _)
    have hps : e.1.data = Char.ofNat 38 :: e.1.data.tail := by
      cases hd : e.1.data with
      | nil => rw [hd] at hhd; exact absurd hhd (by simp)
      | cons a t =>
        rw [hd] at hhd
        simp only [List.head?_cons, Option.some.injEq] at hhd
        rw [hhd]
        rfl
    have h1 : Clean.replaceLiteralCI e.1.data e.2.data s = s := by
      rw [Clean.replaceLiteralCI, hps]
      exact replaceLiteralCIF_no_amp _ _ _ s hs
    rw [List.foldl_cons, h1]
    exact ih s (fun d hd => htbl d (List.mem_cons_of_mem _ hd)) hs

theorem decodeDecEntitiesF_no_amp :
    ∀ (fuel : Nat) (s : List Char), (∀ c ∈ s, c ≠ Char.ofNat 38) →
      Clean.decodeDecEntitiesF fuel s = s := by
  intro fuel
  induction fuel with
  | zero => intro s _; rfl
  | succ fuel ih =>
    intro s h
    cases s with
    | nil => rfl
    | cons c rest =>
      have hc : c ≠ Char.ofNat 38 := h c (List.mem_cons_self _ _)
      rw [Clean.decodeDecEntitiesF, if_neg hc,
        ih rest (fun d hd => h d (List.mem_cons_of_mem _ hd))]

theorem decodeHexEntitiesF_no_amp :
    ∀ (fuel : Nat) (s : List Char), (∀ c ∈ s, c ≠ Char.ofNat 38) →
      Clean.decodeHexEntitiesF fuel s = s := by
  intro fuel
  induction fuel with
  | zero => intro s _; rfl
  | succ fuel ih =>
    intro s h
    cases s with
    | nil => rfl
    | cons c rest =>
      have hc : c ≠ Char.ofNat 38 := h c (List.mem_cons_self _ _)
      rw [Clean.decodeHexEntitiesF, if_neg hc,
        ih rest (fun d hd => h d (List.mem_cons_of_mem _ hd))]

/-- A string without an ampersand is a fixed point of the entity decoder:
every named-entity pattern starts with `&`, and so do the numeric and hex
character references. -/
theorem decode_no_amp {s : String} (h : ∀ c ∈ s.data, c ≠ Char.ofNat 38) :
    Clean.decodeHTMLEntities s = s := by
  obtain ⟨d⟩ := s
  by_cases he : String.mk d = ""
  · rw [he]; decide
  · simp only [Clean.decodeHTMLEntities, if_neg he]
    rw [foldl_replace_no_amp Clean.HTML_ENTITIES _ (by decide) h,
      decodeDecEntitiesF_no_amp _ _ h, decodeHexEntitiesF_no_amp _ _ h]

theorem dedupAcc_all_seen :
    ∀ (l seen : List String), (∀ y ∈ l, y ∈ seen) → dedupAcc seen l = [] := by
  intro l
  induction l with
  | nil => intro seen _; rfl
  | cons x l ih =>
    intro seen h
    rw [dedupAcc, if_pos (h x (List.mem_cons_self _ _))]
    exact ih seen (fun y hy => h y (List.mem_cons_of_mem _ hy))

theorem dedupAcc_append_sub :
    ∀ (l1 l2 seen : List String), (∀ y ∈ l2, y ∈ l1 ∨ y ∈ seen) →
      dedupAcc seen (l1 ++ l2) = dedupAcc seen l1 := by
  intro l1
  induction l1 with
  | nil =>
    intro l2 seen h
    rw [List.nil_append, dedupAcc]
    exact dedupAcc_all_seen l2 seen
      (fun y hy => ((h y hy).resolve_left (by simp)))
  | cons x l1 ih =>
    intro l2 seen h
    rw [List.cons_append, dedupAcc, dedupAcc]
    by_cases hx : x ∈ seen
    · rw [if_pos hx, if_pos hx]
      refine ih l2 seen (fun y hy => ?_)
      rcases h y hy with hy1 | hy1
      · rcases List.mem_cons.mp hy1 with he | hy1
        · exact Or.inr (he ▸ hx)
        · exact Or.inl hy1
      · exact Or.inr hy1
    · rw [if_neg hx, if_neg hx]
      refine congrArg (x :: ·) (ih l2 (x :: seen) (fun y hy => ?_))
      rcases h y hy with hy1 | hy1
      · rcases List.mem_cons.mp hy1 with he | hy1
        · exact Or.inr (he ▸ List.mem_cons_self _ _)
        · exact Or.inl hy1
      · exact Or.inr (List.mem_cons_of_mem _ hy1)

theorem dedupAcc_nodup_id :
    ∀ (l seen : List String), l.Nodup → (∀ y ∈ l, y ∉ seen) →
      dedupAcc seen l = l := by
  intro l
  induction l with
  | nil => intro seen _ _; rfl
  | cons x l ih =>
    intro seen hnd h
    rw [List.nodup_cons] at hnd
    rw [dedupAcc, if_neg (h x (List.mem_cons_self _ _))]
    refine congrArg (x :: ·) (ih (x :: seen) hnd.2 (fun y hy => ?_))
    intro hc
    rcases List.mem_cons.mp hc with he | hc
    · exact hnd.1 (he ▸ hy)
    · exact h y (List.mem_cons_of_mem _ hy) hc

/-- Re-unioning the same detected list into an already-unioned set is a
no-op. -/
theorem jsSetUnion_right_idem (a b : List String) :
    jsSetUnion (jsSetUnion a b) b = jsSetUnion a b := by
  have hsub : ∀ y ∈ b, y ∈ dedupAcc [] (a ++ b) ∨ y ∈ ([] : List String) := by
    intro y hy
    exact Or.inl ((mem_dedupAcc (a ++ b) []).mpr
      ⟨List.mem_append_right _ hy, by simp⟩)
  rw [jsSetUnion, jsSetUnion]
  rw [dedupAcc_append_sub (dedupAcc [] (a ++ b)) b [] hsub]
  exact dedupAcc_nodup_id (dedupAcc [] (a ++ b)) []
    (nodup_dedupAcc _ _) (fun y _ => by simp)

theorem jsNullish_idem {α : Type} (x y : Option α) :
    jsNullish (jsNullish x y) y = jsNullish x y := by
  cases x <;> cases y <;> rfl

theorem joblisting_ext {a b : JobListing}
    (e1 : a.id = b.id) (e2 : a.platform = b.platform)
    (e3 : a.external_id = b.external_id) (e4 : a.title = b.title)
    (e5 : a.company = b.company) (e6 : a.description = b.description)
    (e7 : a.url = b.url) (e8 : a.salary_min = b.salary_min)
    (e9 : a.salary_max = b.salary_max)
    (e10 : a.salary_currency = b.salary_currency)
    (e11 : a.salary_type = b.salary_type)
    (e12 : a.contract_type = b.contract_type)
    (e13 : a.experience_level = b.experience_level)
    (e14 : a.location = b.location) (e15 : a.remote_type = b.remote_type)
    (e16 : a.timezone = b.timezone) (e17 : a.tech_stack = b.tech_stack)
    (e18 : a.tags = b.tags) (e19 : a.posted_at = b.posted_at)
    (e20 : a.fetched_at = b.fetched_at) (e21 : a.raw = b.raw) : a = b := by
  cases a
  cases b
  simp only [JobListing.mk.injEq]
  exact ⟨e1, e2, e3, e4, e5, e6, e7, e8, e9, e10, e11, e12, e13, e14, e15,
    e16, e17, e18, e19, e20, e21⟩

theorem salaryResolve_of_some {j : JobListing} (h : j.salary_min ≠ none) :
    Clean.salaryResolve j =
      (j.salary_min, j.salary_max, j.salary_currency, j.salary_type) := by
  rw [Clean.salaryResolve, if_neg h]

theorem salaryResolve_no_desc {j : JobListing}
    (hd : Clean.cleanDesc j.description = none) :
    Clean.salaryResolve j =
      (j.salary_min, j.salary_max, j.salary_currency, j.salary_type) := by
  by_cases h : j.salary_min = none
  · rw [Clean.salaryResolve, if_pos h, hd]
  · rw [Clean.salaryResolve, if_neg h]

theorem salaryResolve_extract {j : JobListing} {d : String}
    (h : j.salary_min = none) (hd : Clean.cleanDesc j.description = some d)
    (hde : d ≠ "") :
    Clean.salaryResolve j =
      (match Clean.extractSalaryFromText d with
       | some ex => (ex.min, ex.max, some ex.currency, some ex.type)
       | none =>
         (j.salary_min, j.salary_max, j.salary_currency, j.salary_type)) := by
  rw [Clean.salaryResolve, if_pos h, hd]
  show (match (if d = "" then none else Clean.extractSalaryFromText d) with
        | some ex => (ex.min, ex.max, some ex.currency, some ex.type)
        | none =>
          (j.salary_min, j.salary_max, j.salary_currency, j.salary_type)) = _
  rw [if_neg hde]

/-! ## Claims C1, C2, C3, C6, C7, C10 -/

/-- C1 (counterexample): the survivor is not selected by a lexicographic
ordering with the base source priority as primary key — the completeness bonus
is summed into the score, so the `wwr` record with a salary (base 3, bonus 2)
beats the `hn` record without one (base 4, bonus 0) although `hn` has strictly
higher base priority. -/
theorem claim1_counterexample :
    Dedupe.selectBestJob [jobHN, jobWWR] = some jobWWR ∧
    Dedupe.sourcePriority jobHN.platform = 4 ∧
    Dedupe.sourcePriority jobWWR.platform = 3 ∧
    jobWWR ≠ jobHN := by
  refine ⟨by decide, by decide, by decide, by decide⟩

/-- C1 (amended): `selectBestJob` returns the earliest record maximal in the
lexicographic order on (summed score `getPriority` = base source priority +
completeness bonus, most recent `posted_at` with null as epoch 0); the bonus
is added to the base priority and can therefore overturn a base-priority gap
of up to 3. -/
theorem claim1_theorem (j : JobListing) (tl : List JobListing) :
    ∃ b, Dedupe.selectBestJob (j :: tl) = some b ∧ b ∈ j :: tl ∧
      ∀ x ∈ j :: tl,
        Dedupe.getPriority x < Dedupe.getPriority b ∨
          (Dedupe.getPriority x = Dedupe.getPriority b ∧
            Dedupe.dateValue x ≤ Dedupe.dateValue b) := by
  obtain ⟨b, hb, hmem, hmax⟩ := selectFold_spec tl j
  refine ⟨b, ?_, hmem, hmax⟩
  simp only [Dedupe.selectBestJob]
  rw [hb]

/-- C1 witness: the amended theorem applied to the concrete two-record
cluster. -/
theorem claim1_witness :
    ∃ b, Dedupe.selectBestJob [jobHN, jobWWR] = some b ∧ b ∈ [jobHN, jobWWR] ∧
      ∀ x ∈ [jobHN, jobWWR],
        Dedupe.getPriority x < Dedupe.getPriority b ∨
          (Dedupe.getPriority x = Dedupe.getPriority b ∧
            Dedupe.dateValue x ≤ Dedupe.dateValue b) :=
  claim1_theorem jobHN [jobWWR]

/-- C2 (counterexample): the universally quantified substring clause fails for
identical strings: "a" fully contains "a" and both are non-empty, yet the
score is 1, not 0.9 (the identical-strings rule fires first). -/
theorem claim2_counterexample :
    strIncludes "a".data "a".data = true ∧ ("a" : String) ≠ "" ∧
    Enrich.similarityScore "a" "a" = 1 ∧ (1 : ℚ) ≠ 9/10 := by
  refine ⟨by decide, by decide, by decide, by norm_num⟩

/-- C2 (amended): `similarityScore` is symmetric, always lies in [0, 1], and
scores a fixed 0.9 for non-empty *distinct* strings where one contains the
other (for identical strings the score is 1 instead). -/
theorem claim2_theorem :
    (∀ a b : String, Enrich.similarityScore a b = Enrich.similarityScore b a) ∧
    (∀ a b : String, 0 ≤ Enrich.similarityScore a b ∧ Enrich.similarityScore a b ≤ 1) ∧
    (∀ a b : String, a ≠ b → a ≠ "" → b ≠ "" →
      strIncludes a.data b.data = true → Enrich.similarityScore a b = 9/10) := by
  refine ⟨Enrich.similarityScore_comm, Enrich.similarityScore_range, ?_⟩
  intro a b hne ha hb hinc
  unfold Enrich.similarityScore
  rw [if_neg hne,
    if_neg (not_or.mpr ⟨string_length_ne_zero ha, string_length_ne_zero hb⟩),
    if_pos (Bool.or_eq_true _ _ |>.mpr (Or.inl hinc))]
  exact mkRat_nine_tenths

/-- C2 witness: the amended theorem applied at concrete strings, with the
substring clause instantiated at "ab" ⊇ "a". -/
theorem claim2_witness :
    ("ab" : String) ≠ "a" ∧ strIncludes "ab".data "a".data = true ∧
    Enrich.similarityScore "ab" "a" = 9/10 :=
  ⟨by decide, by decide,
   claim2_theorem.2.2 "ab" "a" (by decide) (by decide) (by decide) (by decide)⟩

/-- C3 (counterexample): two records with a `null` company (malformed for
matching) are not isolated into singleton clusters: their normalized company
keys are both empty, empty keys score 1 against each other, and the records
are grouped into one cluster of size 2. -/
theorem claim3_counterexample :
    jobNoCompanyA.company = none ∧ jobNoCompanyB.company = none ∧
    (Dedupe.deduplicateJobs [jobNoCompanyA, jobNoCompanyB]).duplicates =
      [{ kept := jobNoCompanyA, removed := [jobNoCompanyB] }] := by
  refine ⟨rfl, rfl, by decide⟩

/-- C3 (amended): `deduplicateJobs` is a total batch transform (every batch
yields a result whose `totalInput` is the batch length — no abort), a `null`
company is treated as the empty normalization key, but empty-keyed records are
*not* isolated: two keys with empty companies and identical titles pass the
similarity test (identical strings score 1), so such records can be grouped
together. -/
theorem claim3_theorem :
    (∀ jobs : List JobListing,
      (Dedupe.deduplicateJobs jobs).stats.totalInput = (jobs.length : Int)) ∧
    (∀ j : JobListing, j.company = none →
      (Dedupe.getDedupeKey j).normalizedCompany = "") ∧
    (∀ a b : Dedupe.DedupeKey, a.normalizedCompany = "" → b.normalizedCompany = "" →
      a.normalizedTitle = b.normalizedTitle → Dedupe.areSimilar a b = true) := by
  refine ⟨fun jobs => rfl, ?_, ?_⟩
  · intro j hc
    simp [Dedupe.getDedupeKey, Enrich.normalizeCompanyName, hc]
  · intro a b ha hb ht
    rw [Dedupe.areSimilar, ha, hb, ht]
    have h1 : Enrich.similarityScore "" "" = 1 := by decide
    have h2 : Enrich.similarityScore b.normalizedTitle b.normalizedTitle = 1 := by
      simp [Enrich.similarityScore]
    rw [h1, h2]
    have hlt : ¬((1 : ℚ) < Dedupe.SIMILARITY_THRESHOLD) := by decide
    rw [if_neg hlt, if_neg hlt]

/-- C3 witness: the amended theorem applied to the concrete malformed
records. -/
theorem claim3_witness :
    (Dedupe.deduplicateJobs [jobNoCompanyA, jobNoCompanyB]).stats.totalInput = (2 : Int) ∧
    (Dedupe.getDedupeKey jobNoCompanyA).normalizedCompany = "" ∧
    Dedupe.areSimilar ⟨"", "x"⟩ ⟨"", "x"⟩ = true :=
  ⟨claim3_theorem.1 [jobNoCompanyA, jobNoCompanyB],
   claim3_theorem.2.1 jobNoCompanyA rfl,
   claim3_theorem.2.2 ⟨"", "x"⟩ ⟨"", "x"⟩ rfl rfl rfl⟩

/-- C6 (counterexample): the merged description is not always "the longer
non-null description": a `null` primary description ties (length 0) with an
empty but non-null secondary description, and the code keeps the primary's
`null`, dropping the only non-null description. -/
theorem claim6_counterexample :
    mergePrimary.description = none ∧ mergeSecondary.description = some "" ∧
    (Dedupe.mergeJobData mergePrimary mergeSecondary).description = none := by
  refine ⟨rfl, rfl, by decide⟩

/-- C6 (amended): `mergeJobData` takes each of the four salary fields from the
primary unless it is null (then from the secondary); `tech_stack` and `tags`
are exact set unions (an entry is in the result iff it is in either input, and
the result has no duplicates); the description is the primary's unless the
secondary's is strictly longer (null counting as length 0 — so a null primary
description is kept over an equally short non-null one); `experience_level`
and `contract_type` are the primary's, filled from the secondary only when
null. -/
theorem claim6_theorem (p s : JobListing) :
    (p.salary_min ≠ none → (Dedupe.mergeJobData p s).salary_min = p.salary_min) ∧
    (p.salary_min = none → (Dedupe.mergeJobData p s).salary_min = s.salary_min) ∧
    (p.salary_max ≠ none → (Dedupe.mergeJobData p s).salary_max = p.salary_max) ∧
    (p.salary_max = none → (Dedupe.mergeJobData p s).salary_max = s.salary_max) ∧
    (p.salary_currency ≠ none →
      (Dedupe.mergeJobData p s).salary_currency = p.salary_currency) ∧
    (p.salary_currency = none →
      (Dedupe.mergeJobData p s).salary_currency = s.salary_currency) ∧
    (p.salary_type ≠ none → (Dedupe.mergeJobData p s).salary_type = p.salary_type) ∧
    (p.salary_type = none → (Dedupe.mergeJobData p s).salary_type = s.salary_type) ∧
    (∀ x, x ∈ (Dedupe.mergeJobData p s).tech_stack ↔
      x ∈ p.tech_stack ∨ x ∈ s.tech_stack) ∧
    (Dedupe.mergeJobData p s).tech_stack.Nodup ∧
    (∀ x, x ∈ (Dedupe.mergeJobData p s).tags ↔ x ∈ p.tags ∨ x ∈ s.tags) ∧
    (Dedupe.mergeJobData p s).tags.Nodup ∧
    (Dedupe.descLen s.description ≤ Dedupe.descLen p.description →
      (Dedupe.mergeJobData p s).description = p.description) ∧
    (Dedupe.descLen p.description < Dedupe.descLen s.description →
      (Dedupe.mergeJobData p s).description = s.description) ∧
    (p.experience_level ≠ none →
      (Dedupe.mergeJobData p s).experience_level = p.experience_level) ∧
    (p.experience_level = none →
      (Dedupe.mergeJobData p s).experience_level = s.experience_level) ∧
    (p.contract_type ≠ none →
      (Dedupe.mergeJobData p s).contract_type = p.contract_type) ∧
    (p.contract_type = none →
      (Dedupe.mergeJobData p s).contract_type = s.contract_type) := by
  refine ⟨fun h => jsNullish_of_ne h, fun h => by rw [Dedupe.mergeJobData]; rw [h]; rfl,
    fun h => jsNullish_of_ne h, fun h => by rw [Dedupe.mergeJobData]; rw [h]; rfl,
    fun h => jsNullish_of_ne h, fun h => by rw [Dedupe.mergeJobData]; rw [h]; rfl,
    fun h => jsNullish_of_ne h, fun h => by rw [Dedupe.mergeJobData]; rw [h]; rfl,
    fun x => mem_jsSetUnion, nodup_jsSetUnion _ _,
    fun x => mem_jsSetUnion, nodup_jsSetUnion _ _,
    ?_, ?_, fun h => jsNullish_of_ne h, fun h => by rw [Dedupe.mergeJobData]; rw [h]; rfl,
    fun h => jsNullish_of_ne h, fun h => by rw [Dedupe.mergeJobData]; rw [h]; rfl⟩
  · intro h
    simp only [Dedupe.mergeJobData, if_pos h]
  · intro h
    simp only [Dedupe.mergeJobData, if_neg (not_le.mpr h)]

/-- C6 witness: the amended theorem applied to concrete records, discharging
both the non-null and the null hypotheses. -/
theorem claim6_witness :
    (Dedupe.mergeJobData jobWWR baseJob).salary_min = jobWWR.salary_min ∧
    (Dedupe.mergeJobData baseJob jobWWR).salary_min = jobWWR.salary_min ∧
    (Dedupe.mergeJobData jobWWR baseJob).description = jobWWR.description :=
  ⟨(claim6_theorem jobWWR baseJob).1 (by decide),
   (claim6_theorem baseJob jobWWR).2.1 rfl,
   (claim6_theorem jobWWR baseJob).2.2.2.2.2.2.2.2.2.2.2.2.1 (by decide)⟩

/-- C7 (counterexample): the `normalizeCompanyName` used by the Dedup Engine
(`enrich.ts`) strips all non-alphanumeric characters *before* its suffix
replacement, whose word boundaries can then never match an interior suffix:
"Acme Inc" normalizes to "acmeinc", not to the key of the bare name "Acme". -/
theorem claim7_counterexample :
    Enrich.normalizeCompanyName (some "Acme Inc") = "acmeinc" ∧
    Enrich.normalizeCompanyName (some "Acme") = "acme" ∧
    Enrich.normalizeCompanyName (some "Acme Inc") ≠
      Enrich.normalizeCompanyName (some "Acme") := by
  refine ⟨by decide, by decide, by decide⟩

/-- C7 (amended): the lowercase → iteratively-peel-suffixes → strip-non-
alphanumerics order described by the claim is implemented by the clean-utils
`normalizeCompanyName` (not the one the Dedup Engine imports from
`enrich.ts`): under it "Acme Inc" and the compound "Acme Company Inc. LLC"
both normalize to the key of the bare "Acme", while the Dedup Engine's
version maps "Acme Inc" to "acmeinc". -/
theorem claim7_theorem :
    Clean.normalizeCompanyName (some "Acme Inc") = "acme" ∧
    Clean.normalizeCompanyName (some "Acme Company Inc. LLC") = "acme" ∧
    Clean.normalizeCompanyName (some "Acme") = "acme" ∧
    Enrich.normalizeCompanyName (some "Acme Inc") = "acmeinc" := by
  refine ⟨by decide, by decide, by decide, by decide⟩

/-- C10: with pairwise-distinct ids, `deduplicateJobs` partitions its input:
the survivors plus all removed records are a permutation of the input batch
(no record dropped or duplicated), every duplicate-report entry's kept record
is a survivor, and the stats satisfy totalUnique + totalDuplicates =
totalInput = input length. -/
theorem claim10_theorem (jobs : List JobListing)
    (h : (jobs.map (fun j => j.id)).Nodup) :
    ((Dedupe.deduplicateJobs jobs).unique ++
      (((Dedupe.deduplicateJobs jobs).duplicates.map (fun d => d.removed)).flatten)).Perm
      jobs ∧
    (∀ d ∈ (Dedupe.deduplicateJobs jobs).duplicates,
      d.kept ∈ (Dedupe.deduplicateJobs jobs).unique) ∧
    (Dedupe.deduplicateJobs jobs).stats.totalUnique +
      (Dedupe.deduplicateJobs jobs).stats.totalDuplicates =
      (Dedupe.deduplicateJobs jobs).stats.totalInput ∧
    (Dedupe.deduplicateJobs jobs).stats.totalInput = (jobs.length : Int) := by
  have hjoin := Dedupe.buildClusters_join_perm jobs [] h
  have hfilter : jobs.filter (fun j => decide (j.id ∉ ([] : List String))) = jobs := by
    apply List.filter_eq_self.mpr
    intro a _
    simp
  rw [hfilter] at hjoin
  have hids : (((Dedupe.buildClusters jobs []).flatten).map (fun j => j.id)).Nodup :=
    (List.Perm.nodup_iff (hjoin.map (fun j => j.id))).mpr h
  have hclusters := flatten_map_nodup (Dedupe.buildClusters jobs []) hids
  have hperm2 := Dedupe.processClusters_perm (Dedupe.buildClusters jobs []) hclusters
  refine ⟨hperm2.trans hjoin, ?_, ?_, rfl⟩
  · intro d hd
    exact Dedupe.processClusters_kept _ d hd
  · simp only [Dedupe.deduplicateJobs]
    omega

/-- C10 witness: the theorem applied to a concrete two-record batch that
forms one duplicate cluster. -/
theorem claim10_witness :
    (([jobHN, jobWWR].map (fun j => j.id)).Nodup) ∧
    (((Dedupe.deduplicateJobs [jobHN, jobWWR]).unique ++
      (((Dedupe.deduplicateJobs [jobHN, jobWWR]).duplicates.map
        (fun d => d.removed)).flatten)).Perm [jobHN, jobWWR] ∧
    (∀ d ∈ (Dedupe.deduplicateJobs [jobHN, jobWWR]).duplicates,
      d.kept ∈ (Dedupe.deduplicateJobs [jobHN, jobWWR]).unique) ∧
    (Dedupe.deduplicateJobs [jobHN, jobWWR]).stats.totalUnique +
      (Dedupe.deduplicateJobs [jobHN, jobWWR]).stats.totalDuplicates =
      (Dedupe.deduplicateJobs [jobHN, jobWWR]).stats.totalInput ∧
    (Dedupe.deduplicateJobs [jobHN, jobWWR]).stats.totalInput = ((2 : Nat) : Int)) :=
  ⟨by decide, claim10_theorem [jobHN, jobWWR] (by decide)⟩

/-! ## Claims C4, C5, C8, C9 -/

/-- C4: the salary extractor meets its postconditions — the three reference
extractions hold; the `k` shorthand is expanded ×1000 exactly when the raw
numeral is below 1000 (stated on the handler adjustment and on the range
handler); parsed bounds with min > max are swapped by the validator; a value
outside [0, 10,000,000] in either bound makes the validator reject that
pattern's result, after which the loop continues with the next pattern — as
the last concrete input shows: its range pattern is rejected as implausible
and the hourly pattern then fires. -/
theorem claim4_theorem :
    (Clean.extractSalaryFromText "$100k - $150k per year" =
      some { min := some 100000, max := some 150000, currency := "USD",
             type := .yearly } ∧
     Clean.extractSalaryFromText "$50/hr" =
      some { min := some 50, max := none, currency := "USD",
             type := .hourly } ∧
     Clean.extractSalaryFromText "EUR 80.000 - 120.000" =
      some { min := some 80000, max := some 120000, currency := "EUR",
             type := .yearly } ∧
     Clean.extractSalaryFromText "$15,000,000+ and also $50/hr" =
      some { min := some 50, max := none, currency := "USD",
             type := .hourly }) ∧
    (∀ (hk : Bool) (v : ℚ),
      Clean.kAdj hk (some v) =
        some (if hk = true ∧ v < 1000 then v * 1000 else v)) ∧
    (∀ (m0 a b : List Char) (g : Nat → Option (List Char)),
      g 1 = some a → g 2 = some b →
      Clean.handler1 m0 g = some {
        min := Clean.kAdj (Clean.hasLowerK m0)
          (Clean.parseF (Clean.stripCommas a))
        max := Clean.kAdj (Clean.hasLowerK m0)
          (Clean.parseF (Clean.stripCommas b))
        currency := "USD"
        type := if Clean.hourlyHint (g 3) then .hourly else .yearly }) ∧
    (∀ (r : Clean.ExtractedSalary) (mn mx : ℚ),
      r.min = some mn → r.max = some mx →
      0 ≤ mn → mn ≤ 10000000 → 0 ≤ mx → mx ≤ 10000000 → mx < mn →
      Clean.validateAndFix r =
        some { r with min := some mx, max := some mn }) ∧
    (∀ (r : Clean.ExtractedSalary) (v : ℚ),
      r.min = some v → (v < 0 ∨ 10000000 < v) →
      Clean.validateAndFix r = none) ∧
    (∀ (r : Clean.ExtractedSalary) (v : ℚ),
      r.max = some v → (v < 0 ∨ 10000000 < v) →
      Clean.validateAndFix r = none) := by
  refine ⟨⟨by decide, by decide, by decide, by decide⟩, ?_, ?_, ?_, ?_, ?_⟩
  · intro hk v
    cases hk with
    | false => simp [Clean.kAdj]
    | true =>
      by_cases h2 : v < 1000
      · simp [Clean.kAdj, h2, ratMulNat_eq]
      · simp [Clean.kAdj, h2]
  · intro m0 a b g h1 h2
    rw [Clean.handler1, h1, h2]
  · intro r mn mx hmin hmax h0n h1n h0x h1x hlt
    have c1 : Clean.badBound r.min = false := by
      rw [hmin, Clean.badBound]
      simp only [Bool.or_eq_false_iff, decide_eq_false_iff_not]
      exact ⟨not_lt.mpr h0n, not_lt.mpr h1n⟩
    have c2 : Clean.badBound r.max = false := by
      rw [hmax, Clean.badBound]
      simp only [Bool.or_eq_false_iff, decide_eq_false_iff_not]
      exact ⟨not_lt.mpr h0x, not_lt.mpr h1x⟩
    rw [Clean.validateAndFix, if_neg (by simp [c1]), if_neg (by simp [c2]),
      hmin, hmax]
    show (if mx < mn then some { r with min := some mx, max := some mn }
          else some r) = some { r with min := some mx, max := some mn }
    rw [if_pos hlt]
  · intro r v hmin hbad
    have hb : Clean.badBound r.min = true := by
      rw [hmin, Clean.badBound]
      rcases hbad with h | h <;> simp [h]
    rw [Clean.validateAndFix, if_pos hb]
  · intro r v hmax hbad
    have hb : Clean.badBound r.max = true := by
      rw [hmax, Clean.badBound]
      rcases hbad with h | h <;> simp [h]
    rw [Clean.validateAndFix]
    by_cases hm : Clean.badBound r.min = true
    · rw [if_pos hm]
    · rw [if_neg hm, if_pos hb]

/-- C4 witness: the hypothesis-bearing conjuncts instantiated — `handler1`
on a concrete capture map, the swap on a concrete min > max result, and the
rejections on concrete out-of-range results. -/
theorem claim4_witness :
    (gW 1 = some ['5'] ∧ gW 2 = some ['6'] ∧
      Clean.handler1 [] gW = some {
        min := Clean.kAdj (Clean.hasLowerK [])
          (Clean.parseF (Clean.stripCommas ['5']))
        max := Clean.kAdj (Clean.hasLowerK [])
          (Clean.parseF (Clean.stripCommas ['6']))
        currency := "USD"
        type := if Clean.hourlyHint (gW 3) then .hourly else .yearly }) ∧
    (exSwap.min = some 5 ∧ exSwap.max = some 3 ∧ (3 : ℚ) < 5 ∧
      Clean.validateAndFix exSwap =
        some { exSwap with min := some 3, max := some 5 }) ∧
    (exBig.min = some 20000000 ∧ (10000000 : ℚ) < 20000000 ∧
      Clean.validateAndFix exBig = none) ∧
    (exBigMax.max = some 20000000 ∧
      Clean.validateAndFix exBigMax = none) :=
  ⟨⟨rfl, rfl, claim4_theorem.2.2.1 [] ['5'] ['6'] gW rfl rfl⟩,
   ⟨rfl, rfl, by decide,
    claim4_theorem.2.2.2.1 exSwap 5 3 rfl rfl (by decide) (by decide)
      (by decide) (by decide) (by decide)⟩,
   ⟨rfl, by decide,
    claim4_theorem.2.2.2.2.1 exBig 20000000 rfl (Or.inr (by decide))⟩,
   ⟨rfl, claim4_theorem.2.2.2.2.2 exBigMax 20000000 rfl
     (Or.inr (by decide))⟩⟩

/-- C5 (counterexample): with `salary_min` null but `salary_max` set by the
fetcher, a successful extraction from the description overwrites the
already-set `salary_max` (here with `none`, the hourly extraction carrying no
upper bound), so enrichment is not fill-only on the salary fields. -/
theorem claim5_counterexample :
    jobSalaryMax.salary_max = some 1 ∧
    (Clean.cleanJobListing jobSalaryMax).salary_max ≠
      jobSalaryMax.salary_max :=
  ⟨rfl, by decide⟩

/-- C5: the amended frame of `cleanJobListing` — when `salary_min` is already
set all four salary fields pass through unchanged; a non-null
`experience_level` or `contract_type` is never overwritten; and the identity
fields, url, tags, remote/timezone fields, timestamps and the `raw` payload
always pass through the spread untouched.  (Unconditional preservation of a
non-null `salary_max` is refuted by the counterexample.) -/
theorem claim5_theorem (j : JobListing) :
    (j.salary_min ≠ none →
      (Clean.cleanJobListing j).salary_min = j.salary_min ∧
      (Clean.cleanJobListing j).salary_max = j.salary_max ∧
      (Clean.cleanJobListing j).salary_currency = j.salary_currency ∧
      (Clean.cleanJobListing j).salary_type = j.salary_type) ∧
    (j.experience_level ≠ none →
      (Clean.cleanJobListing j).experience_level = j.experience_level) ∧
    (j.contract_type ≠ none →
      (Clean.cleanJobListing j).contract_type = j.contract_type) ∧
    (Clean.cleanJobListing j).id = j.id ∧
    (Clean.cleanJobListing j).platform = j.platform ∧
    (Clean.cleanJobListing j).external_id = j.external_id ∧
    (Clean.cleanJobListing j).url = j.url ∧
    (Clean.cleanJobListing j).tags = j.tags ∧
    (Clean.cleanJobListing j).remote_type = j.remote_type ∧
    (Clean.cleanJobListing j).timezone = j.timezone ∧
    (Clean.cleanJobListing j).posted_at = j.posted_at ∧
    (Clean.cleanJobListing j).fetched_at = j.fetched_at ∧
    (Clean.cleanJobListing j).raw = j.raw := by
  refine ⟨?_, ?_, ?_, rfl, rfl, rfl, rfl, rfl, rfl, rfl, rfl, rfl, rfl⟩
  · intro h
    have hs := salaryResolve_of_some h
    exact ⟨congrArg (fun t => t.1) hs, congrArg (fun t => t.2.1) hs,
      congrArg (fun t => t.2.2.1) hs, congrArg (fun t => t.2.2.2) hs⟩
  · intro h
    exact jsNullish_of_ne h
  · intro h
    exact jsNullish_of_ne h

/-- C5 witness: on a fully populated record the guarded fields and the raw
payload all survive cleaning unchanged. -/
theorem claim5_witness :
    ((Clean.cleanJobListing jobFull).salary_min = jobFull.salary_min ∧
     (Clean.cleanJobListing jobFull).salary_max = jobFull.salary_max ∧
     (Clean.cleanJobListing jobFull).salary_currency =
       jobFull.salary_currency ∧
     (Clean.cleanJobListing jobFull).salary_type = jobFull.salary_type) ∧
    (Clean.cleanJobListing jobFull).experience_level =
      jobFull.experience_level ∧
    (Clean.cleanJobListing jobFull).contract_type = jobFull.contract_type ∧
    (Clean.cleanJobListing jobFull).raw = jobFull.raw :=
  ⟨(claim5_theorem jobFull).1 (by decide),
   (claim5_theorem jobFull).2.1 (by decide),
   (claim5_theorem jobFull).2.2.1 (by decide),
   (claim5_theorem jobFull).2.2.2.2.2.2.2.2.2.2.2.2⟩

/-- C8 (counterexample): decoding is not idempotent — `&#38;lt;` decodes to
`&lt;` (the numeric reference produces a fresh ampersand), which a second
pass decodes further to `<`. -/
theorem claim8_counterexample :
    Clean.decodeHTMLEntities (Clean.decodeHTMLEntities "&#38;lt;") ≠
      Clean.decodeHTMLEntities "&#38;lt;" := by decide

/-- C8: the amended idempotence — on any input whose decoded form contains no
ampersand (every entity pattern and character reference starts with one), a
second decoding pass is the identity. -/
theorem claim8_theorem (t : String)
    (h : Char.ofNat 38 ∉ (Clean.decodeHTMLEntities t).data) :
    Clean.decodeHTMLEntities (Clean.decodeHTMLEntities t) =
      Clean.decodeHTMLEntities t :=
  decode_no_amp (fun _ hc hce => h (hce ▸ hc))

/-- C8 witness: an entity-free string. -/
theorem claim8_witness :
    Char.ofNat 38 ∉ (Clean.decodeHTMLEntities "abc").data ∧
    Clean.decodeHTMLEntities (Clean.decodeHTMLEntities "abc") =
      Clean.decodeHTMLEntities "abc" :=
  ⟨by decide, claim8_theorem "abc" (by decide)⟩

/-- C9 (counterexample): enrichment is not idempotent — the doubly encoded
`&amp;lt;` in a description becomes `&lt;` after one cleaning pass and `<`
after a second. -/
theorem claim9_counterexample :
    (Clean.cleanJobListing (Clean.cleanJobListing jobAmp)).description ≠
      (Clean.cleanJobListing jobAmp).description := by decide

/-- C9: the amended idempotence — a second `cleanJobListing` pass is the
identity exactly when the cleaned record's text fields are fixed points of
the four text cleaners (which the counterexample's doubly-encoded description
is not): under those four fixed-point hypotheses the second pass changes no
field, the salary resolution re-running deterministically on the same cleaned
description and the set-union and nullish fills being idempotent. -/
theorem claim9_theorem (j : JobListing)
    (h1 : Clean.cleanDesc (Clean.cleanJobListing j).description =
      (Clean.cleanJobListing j).description)
    (h2 : Clean.cleanComp (Clean.cleanJobListing j).company =
      (Clean.cleanJobListing j).company)
    (h3 : Clean.cleanTitleF (Clean.cleanJobListing j).title =
      (Clean.cleanJobListing j).title)
    (h4 : Clean.normalizeLocation (Clean.cleanJobListing j).location =
      (Clean.cleanJobListing j).location) :
    Clean.cleanJobListing (Clean.cleanJobListing j) =
      Clean.cleanJobListing j := by
  have htext : Clean.analysisText (Clean.cleanJobListing j) =
      Clean.analysisText j := by
    rw [Clean.analysisText, Clean.analysisText, h3, h1]
    rfl
  have hsal : Clean.salaryResolve (Clean.cleanJobListing j) =
      ((Clean.cleanJobListing j).salary_min,
       (Clean.cleanJobListing j).salary_max,
       (Clean.cleanJobListing j).salary_currency,
       (Clean.cleanJobListing j).salary_type) := by
    by_cases hjm : j.salary_min = none
    · cases hd : Clean.cleanDesc j.description with
      | none =>
        have hod : (Clean.cleanJobListing j).description = none := hd
        have hcd : Clean.cleanDesc (Clean.cleanJobListing j).description =
            none := by
          rw [hod]
          rfl
        exact salaryResolve_no_desc hcd
      | some d =>
        have hod : (Clean.cleanJobListing j).description = some d := hd
        by_cases hde : d = ""
        · exfalso
          rw [hod, hde] at h1
          simp [Clean.cleanDesc] at h1
        · have hcd := h1.trans hod
          cases hex : Clean.extractSalaryFromText d with
          | none =>
            have hmin1 : (Clean.cleanJobListing j).salary_min = none := by
              have h5 : Clean.salaryResolve j =
                  (j.salary_min, j.salary_max, j.salary_currency,
                   j.salary_type) := by
                rw [salaryResolve_extract hjm hd hde, hex]
              exact (congrArg (fun t => t.1) h5).trans hjm
            have h6 := salaryResolve_extract hmin1 hcd hde
            rw [h6, hex]
          | some ex =>
            have h5 : Clean.salaryResolve j =
                (ex.min, ex.max, some ex.currency, some ex.type) := by
              rw [salaryResolve_extract hjm hd hde, hex]
            cases hexm : ex.min with
            | some v =>
              have h7 : (Clean.cleanJobListing j).salary_min = some v := by
                have h8 : (Clean.cleanJobListing j).salary_min = ex.min :=
                  congrArg (fun t => t.1) h5
                rw [h8, hexm]
              have hmin1 : (Clean.cleanJobListing j).salary_min ≠ none := by
                rw [h7]
                exact Option.some_ne_none v
              exact salaryResolve_of_some hmin1
            | none =>
              have hmin1 : (Clean.cleanJobListing j).salary_min = none := by
                have h8 : (Clean.cleanJobListing j).salary_min = ex.min :=
                  congrArg (fun t => t.1) h5
                rw [h8, hexm]
              have h6 := salaryResolve_extract hmin1 hcd hde
              rw [h6, hex]
              exact h5.symm
    · have h5 := salaryResolve_of_some hjm
      have hmin1 : (Clean.cleanJobListing j).salary_min ≠ none := by
        have h8 : (Clean.cleanJobListing j).salary_min = j.salary_min :=
          congrArg (fun t => t.1) h5
        rw [h8]
        exact hjm
      exact salaryResolve_of_some hmin1
  refine joblisting_ext rfl rfl rfl h3 h2 h1 rfl
    (congrArg (fun t => t.1) hsal) (congrArg (fun t => t.2.1) hsal)
    (congrArg (fun t => t.2.2.1) hsal) (congrArg (fun t => t.2.2.2) hsal)
    ?_ ?_ h4 rfl rfl ?_ rfl rfl rfl rfl
  · show jsNullish ((Clean.cleanJobListing j).contract_type)
        (Clean.detectContractType
          (Clean.analysisText (Clean.cleanJobListing j))) =
      (Clean.cleanJobListing j).contract_type
    rw [htext]
    exact jsNullish_idem j.contract_type
      (Clean.detectContractType (Clean.analysisText j))
  · show jsNullish ((Clean.cleanJobListing j).experience_level)
        (Clean.detectExperienceLevel
          (Clean.analysisText (Clean.cleanJobListing j))) =
      (Clean.cleanJobListing j).experience_level
    rw [htext]
    exact jsNullish_idem j.experience_level
      (Clean.detectExperienceLevel (Clean.analysisText j))
  · show jsSetUnion ((Clean.cleanJobListing j).tech_stack)
        (Clean.extractTechStack
          (Clean.analysisText (Clean.cleanJobListing j))) =
      (Clean.cleanJobListing j).tech_stack
    rw [htext]
    exact jsSetUnion_right_idem j.tech_stack
      (Clean.extractTechStack (Clean.analysisText j))

/-- C9 witness: a minimal record whose cleaned text fields are all fixed
points, so a second enrichment pass is the identity on it. -/
theorem claim9_witness :
    (Clean.cleanDesc (Clean.cleanJobListing jobTitleOnly).description =
      (Clean.cleanJobListing jobTitleOnly).description ∧
     Clean.cleanTitleF (Clean.cleanJobListing jobTitleOnly).title =
      (Clean.cleanJobListing jobTitleOnly).title) ∧
    Clean.cleanJobListing (Clean.cleanJobListing jobTitleOnly) =
      Clean.cleanJobListing jobTitleOnly :=
  ⟨⟨by decide, by decide⟩,
   claim9_theorem jobTitleOnly (by decide) (by decide) (by decide)
     (by decide)⟩
